import Mathlib

/-!
TcpSocketClient (Linux): a shallow embedding.

Source: `modules/platforms/cpp/network/os/linux/src/network/tcp_socket_client.cpp`.

The client is a record of its two fields.  Every method is a function from the
client state to the new state, together with the list of operating-system calls
it issued (in order).  The answers of the operating system are inputs of the
model: one loop iteration of `Connect` issues every call at most once, so the
answers are given per resolved address.
-/

namespace ignite.network

/-! ## Constants -/

/-- Value of `EWOULDBLOCK` in the Linux headers. -/
def EWOULDBLOCK : Int := 11

/-- Value of `EINPROGRESS` in the Linux headers. -/
def EINPROGRESS : Int := 115

/-- Value of `O_NONBLOCK` in the Linux headers. -/
def O_NONBLOCK : Nat := 2048

/-- Constants and helpers that `tcp_socket_client.cpp` takes from headers that
are outside the translated sources; they are parameters of the model. -/
structure Consts where
  /-- The invalid-handle / failed-call value `SOCKET_ERROR`. -/
  SOCKET_ERROR : Int
  /-- The value `WaitResult::TIMEOUT`. -/
  TIMEOUT : Int
  BUFFER_SIZE : Int
  KEEP_ALIVE_IDLE_TIME : Int
  KEEP_ALIVE_PROBES_PERIOD : Int
  /-- The helper `sockets::GetSocketErrorMessage`. -/
  GetSocketErrorMessage : Int → String

/-- Level argument of `setsockopt`. -/
inductive SockLevel where
  | SOL_SOCKET
  | IPPROTO_TCP
  deriving DecidableEq, Repr

/-- Option argument of `setsockopt`. -/
inductive SockOpt where
  | SO_SNDBUF
  | SO_RCVBUF
  | TCP_NODELAY
  | SO_OOBINLINE
  | SO_KEEPALIVE
  | TCP_KEEPIDLE
  | TCP_KEEPINTVL
  deriving DecidableEq, Repr

/-- One call to the operating system (or to the `sockets::` helpers), with its
arguments and, where the code reads it, its return value. -/
inductive OsCall where
  | getaddrinfo (hostname : String) (service : String) (res : Int)
  | freeaddrinfo
  | socket (family : Int) (type : Int) (protocol : Int) (ret : Int)
  | setsockopt (fd : Int) (level : SockLevel) (opt : SockOpt) (val : Int) (ret : Int)
  | fcntlGetFl (fd : Int) (ret : Int)
  | fcntlSetFl (fd : Int) (flags : Int) (ret : Int)
  | connect (fd : Int) (addr : Nat) (addrlen : Nat) (ret : Int)
  | waitOnSocket (fd : Int) (timeout : Int) (rd : Bool) (ret : Int)
  | close (fd : Int)
  | send (fd : Int) (len : Nat) (ret : Int)
  | recv (fd : Int) (len : Nat) (ret : Int)
  deriving DecidableEq, Repr

/-- Error codes of `IgniteError` that the file uses. -/
inductive ErrCode where
  | IGNITE_ERR_GENERIC
  | IGNITE_ERR_NETWORK_FAILURE
  deriving DecidableEq, Repr

/-- A thrown `IgniteError`. -/
structure IgniteError where
  code : ErrCode
  msg : String
  deriving DecidableEq, Repr

/-- Modelled from the spec: the helper `ThrowNetworkError` (declared outside the
translated sources) raises an error that carries the given message. -/
def ThrowNetworkError (msg : String) : IgniteError :=
  { code := ErrCode.IGNITE_ERR_NETWORK_FAILURE, msg := msg }

/-- How a call of `Connect` ends. -/
inductive Outcome where
  | returned (b : Bool)
  | thrown (e : IgniteError)
  deriving DecidableEq, Repr

/-! ## Data model -/

/-- The fields of `TcpSocketClient`. -/
structure TcpSocketClient where
  socketHandle : Int
  blocking : Bool
  deriving DecidableEq, Repr

/-- One node of the list returned by `getaddrinfo`. -/
structure addrinfo where
  ai_family : Int
  ai_socktype : Int
  ai_protocol : Int
  /-- Identity of the socket address the node points to. -/
  ai_addr : Nat
  ai_addrlen : Nat
  deriving DecidableEq, Repr

/-- Answers of the operating system to the calls of one loop iteration. -/
structure AttemptOs where
  /-- Return value of `socket`. -/
  socket : Int
  /-- Text of `sockets::GetLastSocketErrorMessage()` after a failed `socket`. -/
  socketErrMsg : String
  sndbuf : Int
  rcvbuf : Int
  nodelay : Int
  oobinline : Int
  /-- Return value of `fcntl(F_GETFL)`. -/
  getfl : Int
  /-- Return value of `fcntl(F_SETFL)`. -/
  setfl : Int
  keepalive : Int
  keepidle : Int
  keepintvl : Int
  /-- Return value of `connect`. -/
  connect : Int
  /-- Value of `errno` after `connect`. -/
  errno : Int
  /-- Return value of `sockets::WaitOnSocket`. -/
  wait : Int
  deriving DecidableEq, Repr

/-- A resolved address with the answers the operating system gives while the
loop of `Connect` works on it. -/
structure Candidate where
  ai : addrinfo
  os : AttemptOs
  deriving DecidableEq, Repr

/-- Answer of `getaddrinfo`: the return code and the list of nodes. -/
structure Resolution where
  res : Int
  result : List Candidate
  deriving DecidableEq, Repr

/-- Conversion to `int` (signed, 32 bits): the value modulo `2^32`, read as
two's complement. It is `static_cast<int>(size)` on a `size_t`, and the implicit
conversion of the `ssize_t` result of `send` / `recv` to the `int` return type. -/
def toInt32 (n : Int) : Int :=
  (n + 2147483648) % 4294967296 - 2147483648

/-- Conversion of an `int` to `size_t` (unsigned, 64 bits): the value modulo
`2^64`. It is applied to the length argument of `send` / `recv`. -/
def toSizeT (i : Int) : Nat :=
  (i % 18446744073709551616).toNat

/-- Answers of the operating system to the calls of one `Send` or `Receive`. -/
structure TransferOs where
  /-- Return value of `sockets::WaitOnSocket` (an `int`). -/
  wait : Int
  /-- Return value of `send` / `recv` (an `ssize_t`). -/
  ret : Int
  deriving DecidableEq, Repr

/-- Result of a call of `Send` or `Receive`: the returned `int`, the client
after the call and the calls issued. -/
structure TransferResult where
  value : Int
  client : TcpSocketClient
  trace : List OsCall
  deriving DecidableEq, Repr

namespace TcpSocketClient

/-! ## Methods -/

/-- Constructor: `socketHandle(SOCKET_ERROR), blocking(true)`. -/
def new (K : Consts) : TcpSocketClient :=
  { socketHandle := K.SOCKET_ERROR, blocking := true }

/-- `TcpSocketClient::InternalClose`. -/
def InternalClose (K : Consts) (s : TcpSocketClient) : TcpSocketClient × List OsCall :=
  if s.socketHandle ≠ K.SOCKET_ERROR then
    ({ s with socketHandle := K.SOCKET_ERROR }, [OsCall.close s.socketHandle])
  else
    (s, [])

/-- `TcpSocketClient::Close`. -/
def Close (K : Consts) (s : TcpSocketClient) : TcpSocketClient × List OsCall :=
  InternalClose K s

/-- `TcpSocketClient::IsBlocking` (a `const` method). -/
def IsBlocking (s : TcpSocketClient) : Bool :=
  s.blocking

/-- `TcpSocketClient::WaitOnSocket`: forwards to `sockets::WaitOnSocket` on the
current handle; `ret` is the answer. -/
def WaitOnSocket (s : TcpSocketClient) (timeout : Int) (rd : Bool) (ret : Int) :
    Int × List OsCall :=
  (ret, [OsCall.waitOnSocket s.socketHandle timeout rd ret])

/-- The calls `fcntl(F_GETFL)` / `fcntl(F_SETFL, flags | O_NONBLOCK)` of
`TrySetOptions` and the value assigned to `blocking`. The second call is only
made when the first did not return a negative value. -/
def setNonBlocking (fd : Int) (os : AttemptOs) : Bool × List OsCall :=
  if os.getfl < 0 then
    (true, [OsCall.fcntlGetFl fd os.getfl])
  else
    (decide (os.setfl < 0),
      [OsCall.fcntlGetFl fd os.getfl,
       OsCall.fcntlSetFl fd (Int.ofNat (os.getfl.toNat ||| O_NONBLOCK)) os.setfl])

/-- `TcpSocketClient::TrySetOptions`. -/
def TrySetOptions (K : Consts) (os : AttemptOs) (s : TcpSocketClient) :
    TcpSocketClient × List OsCall :=
  let fd := s.socketHandle
  let t1 : List OsCall :=
    [OsCall.setsockopt fd SockLevel.SOL_SOCKET SockOpt.SO_SNDBUF K.BUFFER_SIZE os.sndbuf,
     OsCall.setsockopt fd SockLevel.SOL_SOCKET SockOpt.SO_RCVBUF K.BUFFER_SIZE os.rcvbuf,
     OsCall.setsockopt fd SockLevel.IPPROTO_TCP SockOpt.TCP_NODELAY 1 os.nodelay,
     OsCall.setsockopt fd SockLevel.SOL_SOCKET SockOpt.SO_OOBINLINE 1 os.oobinline]
  let nb := setNonBlocking fd os
  let s1 : TcpSocketClient := { s with blocking := nb.1 }
  let t2 : List OsCall :=
    [OsCall.setsockopt fd SockLevel.SOL_SOCKET SockOpt.SO_KEEPALIVE 1 os.keepalive]
  if K.SOCKET_ERROR = os.keepalive then
    (s1, t1 ++ nb.2 ++ t2)
  else
    (s1, t1 ++ nb.2 ++ t2 ++
      [OsCall.setsockopt fd SockLevel.IPPROTO_TCP SockOpt.TCP_KEEPIDLE
         K.KEEP_ALIVE_IDLE_TIME os.keepidle,
       OsCall.setsockopt fd SockLevel.IPPROTO_TCP SockOpt.TCP_KEEPINTVL
         K.KEEP_ALIVE_PROBES_PERIOD os.keepintvl])

/-- How one iteration of the loop of `Connect` ends. -/
inductive Step where
  /-- The statement `break`. -/
  | brk
  /-- The statement `continue`, with the values of `lastErrorMsg` and `isTimeout`. -/
  | cont (lastErrorMsg : String) (isTimeout : Bool)
  /-- The statement `throw`. -/
  | raise (e : IgniteError)
  deriving DecidableEq, Repr

/-- Result of one loop iteration. -/
structure AttemptResult where
  step : Step
  client : TcpSocketClient
  trace : List OsCall
  deriving DecidableEq, Repr

/-- The body of the loop of `Connect` for the node `c`. -/
def attempt (K : Consts) (timeout : Int) (c : Candidate) (s : TcpSocketClient) :
    AttemptResult :=
  let lastErrorMsg := "Failed to establish connection with the host"
  let s1 : TcpSocketClient := { s with socketHandle := c.os.socket }
  let tSock : List OsCall :=
    [OsCall.socket c.ai.ai_family c.ai.ai_socktype c.ai.ai_protocol c.os.socket]
  if s1.socketHandle = K.SOCKET_ERROR then
    { step := Step.raise
        { code := ErrCode.IGNITE_ERR_GENERIC,
          msg := "Socket creation failed: " ++ c.os.socketErrMsg },
      client := s1, trace := tSock }
  else
    let o := TrySetOptions K c.os s1
    let s2 := o.1
    let tConn : List OsCall :=
      [OsCall.connect s2.socketHandle c.ai.ai_addr c.ai.ai_addrlen c.os.connect]
    if K.SOCKET_ERROR = c.os.connect then
      let lastError := c.os.errno
      if lastError ≠ EWOULDBLOCK ∧ lastError ≠ EINPROGRESS then
        let cl := Close K s2
        { step := Step.cont (lastErrorMsg ++ ": " ++ K.GetSocketErrorMessage lastError) false,
          client := cl.1, trace := tSock ++ o.2 ++ tConn ++ cl.2 }
      else
        let w := WaitOnSocket s2 timeout false c.os.wait
        if w.1 < 0 ∨ w.1 = K.TIMEOUT then
          let cl := Close K s2
          { step := Step.cont lastErrorMsg true,
            client := cl.1, trace := tSock ++ o.2 ++ tConn ++ w.2 ++ cl.2 }
        else
          { step := Step.brk, client := s2, trace := tSock ++ o.2 ++ tConn ++ w.2 }
    else
      { step := Step.brk, client := s2, trace := tSock ++ o.2 ++ tConn }

/-- State at the exit of the loop of `Connect`. -/
structure LoopExit where
  /-- The exception that left the loop, if any. -/
  thrown : Option IgniteError
  lastErrorMsg : String
  isTimeout : Bool
  client : TcpSocketClient
  trace : List OsCall
  deriving DecidableEq, Repr

/-- The loop `for (addrinfo *it = result; it != NULL; it = it->ai_next)`. -/
def connectLoop (K : Consts) (timeout : Int) :
    List Candidate → String → Bool → TcpSocketClient → LoopExit
  | [], lastErrorMsg, isTimeout, s =>
    { thrown := none, lastErrorMsg := lastErrorMsg, isTimeout := isTimeout,
      client := s, trace := [] }
  | c :: rest, _, _, s =>
    let a := attempt K timeout c s
    match a.step with
    | Step.raise e =>
      { thrown := some e, lastErrorMsg := "Failed to establish connection with the host",
        isTimeout := false, client := a.client, trace := a.trace }
    | Step.brk =>
      { thrown := none, lastErrorMsg := "Failed to establish connection with the host",
        isTimeout := false, client := a.client, trace := a.trace }
    | Step.cont msg tmo =>
      let r := connectLoop K timeout rest msg tmo a.client
      { r with trace := a.trace ++ r.trace }

/-- Result of a call of `Connect`. -/
structure ConnectResult where
  outcome : Outcome
  client : TcpSocketClient
  trace : List OsCall
  deriving DecidableEq, Repr

/-- `TcpSocketClient::Connect`. -/
def Connect (K : Consts) (s : TcpSocketClient) (hostname : String) (port : UInt16)
    (timeout : Int) (dns : Resolution) : ConnectResult :=
  let strPort := toString port.toNat
  let tRes : List OsCall := [OsCall.getaddrinfo hostname strPort dns.res]
  if dns.res ≠ 0 then
    { outcome := Outcome.thrown
        (ThrowNetworkError ("Can not resolve host: " ++ hostname ++ ":" ++ strPort)),
      client := s, trace := tRes }
  else
    let l := connectLoop K timeout dns.result "Failed to resolve host" false s
    match l.thrown with
    | some e => { outcome := Outcome.thrown e, client := l.client, trace := tRes ++ l.trace }
    | none =>
      let tr := tRes ++ l.trace ++ [OsCall.freeaddrinfo]
      if l.client.socketHandle = K.SOCKET_ERROR then
        if l.isTimeout then
          { outcome := Outcome.returned false, client := l.client, trace := tr }
        else
          { outcome := Outcome.thrown (ThrowNetworkError l.lastErrorMsg),
            client := l.client, trace := tr }
      else
        { outcome := Outcome.returned true, client := l.client, trace := tr }

/-- `TcpSocketClient::Send`. The bytes of the buffer do not enter. -/
def Send (K : Consts) (s : TcpSocketClient) (size : Nat) (timeout : Int) (os : TransferOs) :
    TransferResult :=
  let tSend : List OsCall :=
    [OsCall.send s.socketHandle (toSizeT (toInt32 (Int.ofNat size))) os.ret]
  if !s.blocking then
    let w := WaitOnSocket s timeout false os.wait
    if w.1 < 0 ∨ w.1 = K.TIMEOUT then
      { value := w.1, client := s, trace := w.2 }
    else
      { value := toInt32 os.ret, client := s, trace := w.2 ++ tSend }
  else
    { value := toInt32 os.ret, client := s, trace := tSend }

/-- `TcpSocketClient::Receive`. The bytes of the buffer do not enter. -/
def Receive (K : Consts) (s : TcpSocketClient) (size : Nat) (timeout : Int) (os : TransferOs) :
    TransferResult :=
  let tRecv : List OsCall :=
    [OsCall.recv s.socketHandle (toSizeT (toInt32 (Int.ofNat size))) os.ret]
  if !s.blocking then
    let w := WaitOnSocket s timeout true os.wait
    if w.1 < 0 ∨ w.1 = K.TIMEOUT then
      { value := w.1, client := s, trace := w.2 }
    else
      { value := toInt32 os.ret, client := s, trace := w.2 ++ tRecv }
  else
    { value := toInt32 os.ret, client := s, trace := tRecv }

end TcpSocketClient

/-! ## Concrete values used in the examples -/

/-- The constants as the Linux build of the library defines them. -/
def linuxConsts : Consts :=
  { SOCKET_ERROR := -1, TIMEOUT := 0, BUFFER_SIZE := 65536,
    KEEP_ALIVE_IDLE_TIME := 60, KEEP_ALIVE_PROBES_PERIOD := 1,
    GetSocketErrorMessage := fun e => if e = 111 then "Connection refused" else "error" }

/-- An IPv4 stream/TCP node. -/
def sampleAddr (n : Nat) : addrinfo :=
  { ai_family := 2, ai_socktype := 1, ai_protocol := 6, ai_addr := n, ai_addrlen := 16 }

/-- Answers of a system on which every option call works; the socket, the
connect result, `errno` and the wait result are given. -/
def sampleOs (fd : Int) (conn : Int) (errno : Int) (wait : Int) : AttemptOs :=
  { socket := fd, socketErrMsg := "Too many open files",
    sndbuf := 0, rcvbuf := 0, nodelay := 0, oobinline := 0,
    getfl := 2, setfl := 0, keepalive := 0, keepidle := 0, keepintvl := 0,
    connect := conn, errno := errno, wait := wait }

/-- A fresh client. -/
def freshClient : TcpSocketClient :=
  TcpSocketClient.new linuxConsts

/-- First node refused, second node in progress and then ready, third node
never reached (its socket could not be opened). -/
def refusedThenReady : Resolution :=
  { res := 0,
    result := [⟨sampleAddr 1, sampleOs 7 (-1) 111 0⟩, ⟨sampleAddr 2, sampleOs 8 (-1) 115 1⟩,
               ⟨sampleAddr 3, sampleOs (-1) 0 0 0⟩] }

/-- Two nodes, both in progress, both waits time out. -/
def allTimeOut : Resolution :=
  { res := 0,
    result := [⟨sampleAddr 1, sampleOs 7 (-1) 115 0⟩, ⟨sampleAddr 2, sampleOs 8 (-1) 11 0⟩] }

/-- One node, in progress, and the readiness wait reports an error. -/
def waitError : Resolution :=
  { res := 0, result := [⟨sampleAddr 1, sampleOs 7 (-1) 115 (-1)⟩] }

/-- One node, connection refused. -/
def refused : Resolution :=
  { res := 0, result := [⟨sampleAddr 1, sampleOs 7 (-1) 111 0⟩] }

/-- A failed resolution (`EAI_NONAME`). -/
def unresolved : Resolution :=
  { res := -2, result := [] }

/-- One node that connects at once, on a socket whose switch to non-blocking
mode fails (`F_SETFL` returns -1). -/
def modeSwitchFails : Resolution :=
  { res := 0,
    result := [⟨sampleAddr 1, { sampleOs 7 0 0 0 with setfl := -1 }⟩] }

/-- A client connected on handle 5, in non-blocking mode. -/
def connectedClient : TcpSocketClient :=
  { socketHandle := 5, blocking := false }

/-- One node that connects at once on socket 6. -/
def connectsAtOnce : Resolution :=
  { res := 0, result := [⟨sampleAddr 1, sampleOs 6 0 0 0⟩] }

/-- First node refused, no socket for the second node, a third node behind. -/
def refusedThenNoSocket : Resolution :=
  { res := 0,
    result := [⟨sampleAddr 1, sampleOs 7 (-1) 111 0⟩, ⟨sampleAddr 2, sampleOs (-1) 0 0 0⟩,
               ⟨sampleAddr 3, sampleOs 9 0 0 0⟩] }

/-- A client connected on handle 5, in blocking mode. -/
def blockingClient : TcpSocketClient :=
  { socketHandle := 5, blocking := true }

/-- The wait reports ready (1) and the transfer moves 10 bytes. -/
def readyTransfer : TransferOs :=
  { wait := 1, ret := 10 }

/-- The wait times out (0). -/
def timedOutTransfer : TransferOs :=
  { wait := 0, ret := 10 }

/-! ## Vocabulary of the properties -/

/-- The call `socket` for the node returns a handle. -/
def opens (K : Consts) (c : Candidate) : Prop :=
  c.os.socket ≠ K.SOCKET_ERROR

/-- The call `connect` for the node succeeds immediately. -/
def connectsNow (K : Consts) (c : Candidate) : Prop :=
  c.os.connect ≠ K.SOCKET_ERROR

/-- The call `connect` for the node reports would-block or in-progress. -/
def wouldBlock (K : Consts) (c : Candidate) : Prop :=
  c.os.connect = K.SOCKET_ERROR ∧ (c.os.errno = EWOULDBLOCK ∨ c.os.errno = EINPROGRESS)

/-- The call `connect` for the node fails with another error. -/
def failsNow (K : Consts) (c : Candidate) : Prop :=
  c.os.connect = K.SOCKET_ERROR ∧ c.os.errno ≠ EWOULDBLOCK ∧ c.os.errno ≠ EINPROGRESS

/-- The readiness wait for the node reports ready: neither negative nor the
timeout value. -/
def waitReady (K : Consts) (c : Candidate) : Prop :=
  0 ≤ c.os.wait ∧ c.os.wait ≠ K.TIMEOUT

/-- The node succeeds: connected immediately, or would-block followed by a
ready wait. -/
def succeeds (K : Consts) (c : Candidate) : Prop :=
  connectsNow K c ∨ (wouldBlock K c ∧ waitReady K c)

/-- The node gets a socket and then fails to connect. -/
def fails (K : Consts) (c : Candidate) : Prop :=
  opens K c ∧ ¬ succeeds K c

instance (K : Consts) (c : Candidate) : Decidable (opens K c) := by
  unfold opens; infer_instance

instance (K : Consts) (c : Candidate) : Decidable (connectsNow K c) := by
  unfold connectsNow; infer_instance

instance (K : Consts) (c : Candidate) : Decidable (wouldBlock K c) := by
  unfold wouldBlock; infer_instance

instance (K : Consts) (c : Candidate) : Decidable (failsNow K c) := by
  unfold failsNow; infer_instance

instance (K : Consts) (c : Candidate) : Decidable (waitReady K c) := by
  unfold waitReady; infer_instance

instance (K : Consts) (c : Candidate) : Decidable (succeeds K c) := by
  unfold succeeds; infer_instance

instance (K : Consts) (c : Candidate) : Decidable (fails K c) := by
  unfold fails; infer_instance

/-- Arguments and result of the `socket` call for a node. -/
def socketArgs (c : Candidate) : Int × Int × Int × Int :=
  (c.ai.ai_family, c.ai.ai_socktype, c.ai.ai_protocol, c.os.socket)

/-- Arguments and result of the `connect` call for a node; the handle is the
one `socket` returned for it. -/
def connectArgs (c : Candidate) : Int × Nat × Nat × Int :=
  (c.os.socket, c.ai.ai_addr, c.ai.ai_addrlen, c.os.connect)

/-- The `socket` calls of a trace, in order. -/
def socketCalls (tr : List OsCall) : List (Int × Int × Int × Int) :=
  tr.filterMap fun ev =>
    match ev with
    | OsCall.socket f t p r => some (f, t, p, r)
    | _ => none

/-- The `connect` calls of a trace, in order. -/
def connectCalls (tr : List OsCall) : List (Int × Nat × Nat × Int) :=
  tr.filterMap fun ev =>
    match ev with
    | OsCall.connect fd a l r => some (fd, a, l, r)
    | _ => none

/-- Arguments and result of the readiness wait of `Connect` for a node: the
node's socket, the timeout handed on, the direction (write) and the answer. -/
def waitArgs (timeout : Int) (c : Candidate) : Int × Int × Bool × Int :=
  (c.os.socket, timeout, false, c.os.wait)

/-- The readiness waits of a trace, in order. -/
def waitCalls (tr : List OsCall) : List (Int × Int × Bool × Int) :=
  tr.filterMap fun ev =>
    match ev with
    | OsCall.waitOnSocket fd t rd r => some (fd, t, rd, r)
    | _ => none

/-- The readiness waits `Connect` issues for a run of attempted nodes: one
for each node whose `connect` reports would-block or in-progress. -/
def waitsFor (K : Consts) (timeout : Int) (cs : List Candidate) :
    List (Int × Int × Bool × Int) :=
  (cs.filter fun c => decide (wouldBlock K c)).map (waitArgs timeout)

/-- Number of `socket` calls of a trace that returned a handle. -/
def opened (K : Consts) : List OsCall → Nat
  | [] => 0
  | ev :: rest =>
    (match ev with
     | OsCall.socket _ _ _ r => if r = K.SOCKET_ERROR then 0 else 1
     | _ => 0) + opened K rest

/-- Number of `close` calls of a trace. -/
def closed : List OsCall → Nat
  | [] => 0
  | ev :: rest =>
    (match ev with
     | OsCall.close _ => 1
     | _ => 0) + closed rest

/-- Effect of one call on the table of open handles: a successful `socket`
adds its handle, `close` removes the handle it is given. -/
def tableStep (K : Consts) (tbl : List Int) : OsCall → List Int
  | OsCall.socket _ _ _ r => if r = K.SOCKET_ERROR then tbl else r :: tbl
  | OsCall.close fd => tbl.erase fd
  | _ => tbl

/-- The handles left open by a trace, starting from the table `tbl`. -/
def handlesFrom (K : Consts) (tbl : List Int) (tr : List OsCall) : List Int :=
  tr.foldl (tableStep K) tbl

/-- The handles opened and not yet closed by a trace. -/
def openHandles (K : Consts) (tr : List OsCall) : List Int :=
  handlesFrom K [] tr

/-- Discipline of a trace with respect to the table of open handles: every
`socket` call is made while no handle is open, and every `close` call closes
the one handle that is open. -/
def Disciplined (K : Consts) : List Int → List OsCall → Prop
  | _, [] => True
  | tbl, ev :: rest =>
    (match ev with
     | OsCall.socket _ _ _ _ => tbl = []
     | OsCall.close fd => tbl = [fd]
     | _ => True) ∧ Disciplined K (tableStep K tbl ev) rest

/-- The timeouts handed to the readiness waits of a trace, in order. -/
def waitTimeouts (tr : List OsCall) : List Int :=
  (waitCalls tr).map fun w => w.2.1

/-- The value is in the range of `int` (signed, 32 bits). -/
def fitsInt32 (n : Int) : Prop :=
  -2147483648 ≤ n ∧ n < 2147483648

instance (n : Int) : Decidable (fitsInt32 n) := by
  unfold fitsInt32; infer_instance

/-- The readiness wait of `Send` / `Receive` did not report ready: its answer
is negative or the timeout value. -/
def waitNotReady (K : Consts) (os : TransferOs) : Prop :=
  os.wait < 0 ∨ os.wait = K.TIMEOUT

instance (K : Consts) (os : TransferOs) : Decidable (waitNotReady K os) := by
  unfold waitNotReady; infer_instance

/-- The length `Send` / `Receive` hand to the transfer call for a given `size`:
narrowed to `int`, then widened to `size_t`. -/
def transferLength (size : Nat) : Nat :=
  toSizeT (toInt32 (Int.ofNat size))

/-- The call is one of the two `fcntl` calls. -/
def isFcntl : OsCall → Bool
  | OsCall.fcntlGetFl _ _ => true
  | OsCall.fcntlSetFl _ _ _ => true
  | _ => false

/-- The `fcntl` calls of a trace, in order. -/
def fcntlCalls (tr : List OsCall) : List OsCall :=
  tr.filter isFcntl

/-- The call is an `fcntl` call that returned a negative value. -/
def fcntlFailed : OsCall → Bool
  | OsCall.fcntlGetFl _ r => decide (r < 0)
  | OsCall.fcntlSetFl _ _ r => decide (r < 0)
  | _ => false

/-- The value `TrySetOptions` leaves in `blocking` for a node. -/
def blockingAfter (c : Candidate) : Bool :=
  decide (c.os.getfl < 0 ∨ c.os.setfl < 0)

/-- The text `lastErrorMsg` after an immediate connect failure of a node. -/
def failureMessage (K : Consts) (c : Candidate) : String :=
  "Failed to establish connection with the host" ++ ": " ++ K.GetSocketErrorMessage c.os.errno

/-- The value of `lastErrorMsg` after the iteration of a failing node. -/
def lastErrorMsgAfter (K : Consts) (c : Candidate) : String :=
  if failsNow K c then failureMessage K c else "Failed to establish connection with the host"

/-- The value of `isTimeout` after the iteration of a failing node. -/
def isTimeoutAfter (K : Consts) (c : Candidate) : Bool :=
  !decide (failsNow K c)

end ignite.network

namespace ignite.network

open TcpSocketClient

/-! ## One loop iteration -/

theorem socketCalls_append (a b : List OsCall) :
    socketCalls (a ++ b) = socketCalls a ++ socketCalls b := by
  simp [socketCalls]

theorem connectCalls_append (a b : List OsCall) :
    connectCalls (a ++ b) = connectCalls a ++ connectCalls b := by
  simp [connectCalls]

theorem socketCalls_cons (ev : OsCall) (tr : List OsCall) :
    socketCalls (ev :: tr) =
      (match ev with
       | OsCall.socket f t p r => [(f, t, p, r)]
       | _ => []) ++ socketCalls tr := by
  cases ev <;> rfl

theorem connectCalls_cons (ev : OsCall) (tr : List OsCall) :
    connectCalls (ev :: tr) =
      (match ev with
       | OsCall.connect fd a l r => [(fd, a, l, r)]
       | _ => []) ++ connectCalls tr := by
  cases ev <;> rfl

theorem socketCalls_nil : socketCalls [] = [] := rfl

theorem waitCalls_append (a b : List OsCall) :
    waitCalls (a ++ b) = waitCalls a ++ waitCalls b := by
  simp [waitCalls]

theorem waitCalls_cons (ev : OsCall) (tr : List OsCall) :
    waitCalls (ev :: tr) =
      (match ev with
       | OsCall.waitOnSocket fd t rd r => [(fd, t, rd, r)]
       | _ => []) ++ waitCalls tr := by
  cases ev <;> rfl

theorem waitCalls_nil : waitCalls [] = [] := rfl

theorem waitsFor_nil (K : Consts) (t : Int) : waitsFor K t [] = [] := rfl

theorem waitsFor_append (K : Consts) (t : Int) (a b : List Candidate) :
    waitsFor K t (a ++ b) = waitsFor K t a ++ waitsFor K t b := by
  simp [waitsFor]

theorem waitsFor_singleton (K : Consts) (t : Int) (c : Candidate) :
    waitsFor K t [c] = if wouldBlock K c then [waitArgs t c] else [] := by
  unfold waitsFor
  by_cases h : wouldBlock K c <;> simp [h]

theorem connectCalls_nil : connectCalls [] = [] := rfl

theorem setNonBlocking_fst (fd : Int) (os : AttemptOs) :
    (setNonBlocking fd os).1 = decide (os.getfl < 0 ∨ os.setfl < 0) := by
  unfold setNonBlocking
  split <;> simp [*]

theorem TrySetOptions_client (K : Consts) (os : AttemptOs) (s : TcpSocketClient) :
    (TrySetOptions K os s).1 =
      { socketHandle := s.socketHandle, blocking := decide (os.getfl < 0 ∨ os.setfl < 0) } := by
  unfold TrySetOptions
  simp only [setNonBlocking_fst]
  split <;> rfl

theorem TrySetOptions_socketCalls (K : Consts) (os : AttemptOs) (s : TcpSocketClient) :
    socketCalls (TrySetOptions K os s).2 = [] := by
  unfold TrySetOptions setNonBlocking
  split <;> split <;> rfl

theorem TrySetOptions_connectCalls (K : Consts) (os : AttemptOs) (s : TcpSocketClient) :
    connectCalls (TrySetOptions K os s).2 = [] := by
  unfold TrySetOptions setNonBlocking
  split <;> split <;> rfl

theorem TrySetOptions_waitCalls (K : Consts) (os : AttemptOs) (s : TcpSocketClient) :
    waitCalls (TrySetOptions K os s).2 = [] := by
  unfold TrySetOptions setNonBlocking
  split <;> split <;> rfl

theorem Close_of_valid (K : Consts) (s : TcpSocketClient) (h : s.socketHandle ≠ K.SOCKET_ERROR) :
    Close K s = ({ s with socketHandle := K.SOCKET_ERROR }, [OsCall.close s.socketHandle]) := by
  simp [Close, InternalClose, h]

theorem Close_mk (K : Consts) (fd : Int) (b : Bool) (h : fd ≠ K.SOCKET_ERROR) :
    Close K { socketHandle := fd, blocking := b } =
      ({ socketHandle := K.SOCKET_ERROR, blocking := b }, [OsCall.close fd]) := by
  simp [Close, InternalClose, h]

theorem Close_of_invalid (K : Consts) (s : TcpSocketClient) (h : s.socketHandle = K.SOCKET_ERROR) :
    Close K s = (s, []) := by
  simp [Close, InternalClose, h]

/-- A node whose socket cannot be opened: the iteration throws right after the
`socket` call. -/
theorem attempt_of_not_opens (K : Consts) (t : Int) (c : Candidate) (s : TcpSocketClient)
    (h : ¬ opens K c) :
    attempt K t c s =
      { step := Step.raise
          { code := ErrCode.IGNITE_ERR_GENERIC,
            msg := "Socket creation failed: " ++ c.os.socketErrMsg },
        client := { socketHandle := K.SOCKET_ERROR, blocking := s.blocking },
        trace := [OsCall.socket c.ai.ai_family c.ai.ai_socktype c.ai.ai_protocol
                    K.SOCKET_ERROR] } := by
  have h1 : c.os.socket = K.SOCKET_ERROR := by
    unfold opens at h
    exact not_not.mp h
  simp [attempt, h1]

/-- A node that succeeds: the iteration ends with `break` on its socket. -/
theorem attempt_of_succeeds (K : Consts) (t : Int) (c : Candidate) (s : TcpSocketClient)
    (ho : opens K c) (hs : succeeds K c) :
    (attempt K t c s).step = Step.brk ∧
    (attempt K t c s).client = { socketHandle := c.os.socket, blocking := blockingAfter c } ∧
    socketCalls (attempt K t c s).trace = [socketArgs c] ∧
    connectCalls (attempt K t c s).trace = [connectArgs c] := by
  unfold opens at ho
  unfold succeeds connectsNow wouldBlock waitReady at hs
  unfold attempt
  simp only [ho, if_false, TrySetOptions_client, WaitOnSocket, blockingAfter, socketArgs,
    connectArgs]
  by_cases hc : c.os.connect = K.SOCKET_ERROR
  · rcases hs with hs | ⟨⟨_, he⟩, hw1, hw2⟩
    · exact absurd hc hs
    · have he2 : ¬ (c.os.errno ≠ EWOULDBLOCK ∧ c.os.errno ≠ EINPROGRESS) := by
        intro ⟨h1, h2⟩
        rcases he with he | he
        · exact h1 he
        · exact h2 he
      have hw : ¬ (c.os.wait < 0 ∨ c.os.wait = K.TIMEOUT) := by
        intro h
        rcases h with h | h
        · omega
        · exact hw2 h
      rw [if_pos hc.symm, if_neg he2, if_neg hw]
      simp only [socketCalls_append, connectCalls_append, TrySetOptions_socketCalls,
        TrySetOptions_connectCalls, socketCalls_cons, connectCalls_cons, socketCalls_nil,
        connectCalls_nil, List.append_nil, List.nil_append, and_self]
  · have hc2 : ¬ K.SOCKET_ERROR = c.os.connect := fun h => hc h.symm
    rw [if_neg hc2]
    simp only [socketCalls_append, connectCalls_append, TrySetOptions_socketCalls,
      TrySetOptions_connectCalls, socketCalls_cons, connectCalls_cons, socketCalls_nil,
      connectCalls_nil, List.append_nil, List.nil_append, and_self]

/-- A node that gets a socket and fails: the iteration ends with `continue`,
the handle closed and invalid again. -/
theorem attempt_of_fails (K : Consts) (t : Int) (c : Candidate) (s : TcpSocketClient)
    (hf : fails K c) :
    (attempt K t c s).step = Step.cont (lastErrorMsgAfter K c) (isTimeoutAfter K c) ∧
    (attempt K t c s).client = { socketHandle := K.SOCKET_ERROR, blocking := blockingAfter c } ∧
    socketCalls (attempt K t c s).trace = [socketArgs c] ∧
    connectCalls (attempt K t c s).trace = [connectArgs c] := by
  obtain ⟨ho, hs⟩ := hf
  unfold opens at ho
  unfold succeeds connectsNow wouldBlock waitReady at hs
  have hc : c.os.connect = K.SOCKET_ERROR := by
    by_contra hc
    exact hs (Or.inl hc)
  unfold attempt
  simp only [ho, if_false, TrySetOptions_client, WaitOnSocket, blockingAfter, hc, if_true,
    socketArgs, connectArgs, lastErrorMsgAfter, isTimeoutAfter]
  by_cases he : c.os.errno ≠ EWOULDBLOCK ∧ c.os.errno ≠ EINPROGRESS
  · have hfn : failsNow K c := ⟨hc, he⟩
    rw [if_pos he, if_pos hfn, Close_mk K _ _ ho]
    simp only [socketCalls_append, connectCalls_append, TrySetOptions_socketCalls,
      TrySetOptions_connectCalls, socketCalls_cons, connectCalls_cons, socketCalls_nil,
      connectCalls_nil, List.append_nil, List.nil_append, and_self, failureMessage]
    simp [hfn]
  · have hfn : ¬ failsNow K c := fun h => he h.2
    have hw : c.os.wait < 0 ∨ c.os.wait = K.TIMEOUT := by
      by_contra hw
      apply hs
      right
      refine ⟨⟨hc, ?_⟩, ?_, ?_⟩
      · by_contra h
        exact he ⟨fun h1 => h (Or.inl h1), fun h2 => h (Or.inr h2)⟩
      · by_contra h
        exact hw (Or.inl (by omega))
      · exact fun h => hw (Or.inr h)
    rw [if_neg he, if_pos hw, if_neg hfn, Close_mk K _ _ ho]
    simp only [socketCalls_append, connectCalls_append, TrySetOptions_socketCalls,
      TrySetOptions_connectCalls, socketCalls_cons, connectCalls_cons, socketCalls_nil,
      connectCalls_nil, List.append_nil, List.nil_append, and_self]
    simp [hfn]

/-- A node that gets a socket: a readiness wait is issued exactly when its
`connect` reports would-block or in-progress; it is a write wait on the node's
socket with the timeout of the call. -/
theorem attempt_waitCalls (K : Consts) (t : Int) (c : Candidate) (s : TcpSocketClient)
    (ho : opens K c) :
    waitCalls (attempt K t c s).trace = waitsFor K t [c] := by
  unfold opens at ho
  rw [waitsFor_singleton]
  unfold attempt wouldBlock
  simp only [ho, if_false, TrySetOptions_client, WaitOnSocket, waitArgs]
  by_cases hc : c.os.connect = K.SOCKET_ERROR
  · rw [if_pos hc.symm]
    by_cases he : c.os.errno ≠ EWOULDBLOCK ∧ c.os.errno ≠ EINPROGRESS
    · have hb : ¬ (c.os.connect = K.SOCKET_ERROR ∧
          (c.os.errno = EWOULDBLOCK ∨ c.os.errno = EINPROGRESS)) := by
        intro ⟨_, h⟩
        rcases h with h | h
        · exact he.1 h
        · exact he.2 h
      rw [if_pos he, if_neg hb, Close_mk K _ _ ho]
      simp only [waitCalls_append, TrySetOptions_waitCalls, waitCalls_cons, waitCalls_nil,
        List.append_nil]
    · have hb : c.os.connect = K.SOCKET_ERROR ∧
          (c.os.errno = EWOULDBLOCK ∨ c.os.errno = EINPROGRESS) := by
        refine ⟨hc, ?_⟩
        by_contra h
        exact he ⟨fun h1 => h (Or.inl h1), fun h2 => h (Or.inr h2)⟩
      rw [if_neg he, if_pos hb]
      by_cases hw : c.os.wait < 0 ∨ c.os.wait = K.TIMEOUT
      · rw [if_pos hw, Close_mk K _ _ ho]
        simp only [waitCalls_append, TrySetOptions_waitCalls, waitCalls_cons, waitCalls_nil,
          List.append_nil, List.nil_append]
      · rw [if_neg hw]
        simp only [waitCalls_append, TrySetOptions_waitCalls, waitCalls_cons, waitCalls_nil,
          List.append_nil, List.nil_append]
  · have hc2 : ¬ K.SOCKET_ERROR = c.os.connect := fun h => hc h.symm
    have hb : ¬ (c.os.connect = K.SOCKET_ERROR ∧
        (c.os.errno = EWOULDBLOCK ∨ c.os.errno = EINPROGRESS)) := fun h => hc h.1
    rw [if_neg hc2, if_neg hb]
    simp only [waitCalls_append, TrySetOptions_waitCalls, waitCalls_cons, waitCalls_nil,
      List.append_nil]

/-! ## The loop -/

theorem connectLoop_cons_brk (K : Consts) (t : Int) (c : Candidate) (rest : List Candidate)
    (msg : String) (tmo : Bool) (s : TcpSocketClient) (h : (attempt K t c s).step = Step.brk) :
    connectLoop K t (c :: rest) msg tmo s =
      { thrown := none, lastErrorMsg := "Failed to establish connection with the host",
        isTimeout := false, client := (attempt K t c s).client,
        trace := (attempt K t c s).trace } := by
  simp only [connectLoop, h]

theorem connectLoop_cons_raise (K : Consts) (t : Int) (c : Candidate) (rest : List Candidate)
    (msg : String) (tmo : Bool) (s : TcpSocketClient) (e : IgniteError)
    (h : (attempt K t c s).step = Step.raise e) :
    connectLoop K t (c :: rest) msg tmo s =
      { thrown := some e, lastErrorMsg := "Failed to establish connection with the host",
        isTimeout := false, client := (attempt K t c s).client,
        trace := (attempt K t c s).trace } := by
  simp only [connectLoop, h]

theorem connectLoop_cons_cont (K : Consts) (t : Int) (c : Candidate) (rest : List Candidate)
    (msg : String) (tmo : Bool) (s : TcpSocketClient) (m : String) (b : Bool)
    (h : (attempt K t c s).step = Step.cont m b) :
    connectLoop K t (c :: rest) msg tmo s =
      { connectLoop K t rest m b (attempt K t c s).client with
        trace := (attempt K t c s).trace ++
          (connectLoop K t rest m b (attempt K t c s).client).trace } := by
  simp only [connectLoop, h]

/-- The loop runs through a run of failing nodes and goes on with the nodes
behind them; the state it carries on is the one the last failing node left. -/
theorem connectLoop_skip (K : Consts) (t : Int) (pre : List Candidate)
    (hpre : ∀ p ∈ pre, fails K p) (msg : String) (tmo : Bool) (s : TcpSocketClient) :
    ∃ (tr : List OsCall) (m : String) (b : Bool) (s1 : TcpSocketClient),
      (socketCalls tr = pre.map socketArgs ∧
       connectCalls tr = pre.map connectArgs ∧
       waitCalls tr = waitsFor K t pre) ∧
      (pre = [] → tr = [] ∧ m = msg ∧ b = tmo ∧ s1 = s) ∧
      (∀ l, pre.getLast? = some l →
        m = lastErrorMsgAfter K l ∧ b = isTimeoutAfter K l ∧
        s1 = { socketHandle := K.SOCKET_ERROR, blocking := blockingAfter l }) ∧
      ∀ rest, connectLoop K t (pre ++ rest) msg tmo s =
        { connectLoop K t rest m b s1 with
          trace := tr ++ (connectLoop K t rest m b s1).trace } := by
  induction pre generalizing msg tmo s with
  | nil =>
    refine ⟨[], msg, tmo, s, ⟨rfl, rfl, rfl⟩, fun _ => ⟨rfl, rfl, rfl, rfl⟩, ?_, ?_⟩
    · intro l hl
      simp at hl
    · intro rest
      simp
  | cons p pre ih =>
    have hp : fails K p := hpre p (List.mem_cons_self _ _)
    have hrest : ∀ q ∈ pre, fails K q := fun q hq => hpre q (List.mem_cons_of_mem _ hq)
    obtain ⟨hstep, hcl, hsock, hconn⟩ := attempt_of_fails K t p s hp
    have hwait := attempt_waitCalls K t p s hp.1
    obtain ⟨tr, m, b, s1, ⟨h1, h2, h2w⟩, h3, h4, h5⟩ :=
      ih hrest (lastErrorMsgAfter K p) (isTimeoutAfter K p) (attempt K t p s).client
    refine ⟨(attempt K t p s).trace ++ tr, m, b, s1, ⟨?_, ?_, ?_⟩, ?_, ?_, ?_⟩
    · rw [socketCalls_append, hsock, h1]
      rfl
    · rw [connectCalls_append, hconn, h2]
      rfl
    · rw [waitCalls_append, hwait, h2w, ← waitsFor_append]
      rfl
    · intro h
      exact absurd h (List.cons_ne_nil _ _)
    · intro l hl
      cases pre with
      | nil =>
        obtain ⟨_, hm, hb, hs1⟩ := h3 rfl
        simp only [List.getLast?_singleton, Option.some.injEq] at hl
        subst hl
        exact ⟨hm, hb, hs1.trans hcl⟩
      | cons q pre2 =>
        rw [List.getLast?_cons_cons] at hl
        exact h4 l hl
    · intro rest
      rw [List.cons_append, connectLoop_cons_cont K t p (pre ++ rest) msg tmo s _ _ hstep, h5 rest]
      simp [List.append_assoc]

/-- The loop when the first node that does not fail succeeds. -/
theorem connectLoop_win (K : Consts) (t : Int) (pre : List Candidate) (w : Candidate)
    (post : List Candidate) (hpre : ∀ p ∈ pre, fails K p) (ho : opens K w)
    (hs : succeeds K w) (msg : String) (tmo : Bool) (s : TcpSocketClient) :
    (connectLoop K t (pre ++ w :: post) msg tmo s).thrown = none ∧
    (connectLoop K t (pre ++ w :: post) msg tmo s).client =
      { socketHandle := w.os.socket, blocking := blockingAfter w } ∧
    socketCalls (connectLoop K t (pre ++ w :: post) msg tmo s).trace =
      (pre ++ [w]).map socketArgs ∧
    connectCalls (connectLoop K t (pre ++ w :: post) msg tmo s).trace =
      (pre ++ [w]).map connectArgs ∧
    waitCalls (connectLoop K t (pre ++ w :: post) msg tmo s).trace =
      waitsFor K t (pre ++ [w]) := by
  obtain ⟨tr, m, b, s1, ⟨h1, h2, h2w⟩, _, _, h5⟩ := connectLoop_skip K t pre hpre msg tmo s
  obtain ⟨hstep, hcl, hsock, hconn⟩ := attempt_of_succeeds K t w s1 ho hs
  have hwait := attempt_waitCalls K t w s1 ho
  rw [h5 (w :: post), connectLoop_cons_brk K t w post m b s1 hstep]
  refine ⟨rfl, hcl, ?_, ?_, ?_⟩
  · simp only [socketCalls_append, h1, hsock, List.map_append, List.map_cons, List.map_nil]
  · simp only [connectCalls_append, h2, hconn, List.map_append, List.map_cons, List.map_nil]
  · simp only [waitCalls_append, h2w, hwait, waitsFor_append]

/-- The loop when every node fails: it falls off the end with the values the
last node left. -/
theorem connectLoop_exhaust (K : Consts) (t : Int) (pre : List Candidate) (l : Candidate)
    (hpre : ∀ p ∈ pre, fails K p) (hl : fails K l) (msg : String) (tmo : Bool)
    (s : TcpSocketClient) :
    (connectLoop K t (pre ++ [l]) msg tmo s).thrown = none ∧
    (connectLoop K t (pre ++ [l]) msg tmo s).lastErrorMsg = lastErrorMsgAfter K l ∧
    (connectLoop K t (pre ++ [l]) msg tmo s).isTimeout = isTimeoutAfter K l ∧
    (connectLoop K t (pre ++ [l]) msg tmo s).client =
      { socketHandle := K.SOCKET_ERROR, blocking := blockingAfter l } ∧
    socketCalls (connectLoop K t (pre ++ [l]) msg tmo s).trace =
      (pre ++ [l]).map socketArgs ∧
    connectCalls (connectLoop K t (pre ++ [l]) msg tmo s).trace =
      (pre ++ [l]).map connectArgs ∧
    waitCalls (connectLoop K t (pre ++ [l]) msg tmo s).trace =
      waitsFor K t (pre ++ [l]) := by
  have hall : ∀ p ∈ pre ++ [l], fails K p := by
    intro p hp
    rcases List.mem_append.mp hp with h | h
    · exact hpre p h
    · rw [List.mem_singleton.mp h]
      exact hl
  obtain ⟨tr, m, b, s1, ⟨h1, h2, h2w⟩, _, h4, h5⟩ :=
    connectLoop_skip K t (pre ++ [l]) hall msg tmo s
  obtain ⟨hm, hb, hs1⟩ := h4 l (by simp)
  have h := h5 []
  rw [List.append_nil] at h
  rw [h]
  simp only [connectLoop, List.append_nil]
  exact ⟨trivial, hm, hb, hs1, h1, h2, h2w⟩

/-- The loop when a socket cannot be opened for the first node that does not
fail: the exception leaves the loop right after that `socket` call. -/
theorem connectLoop_openfail (K : Consts) (t : Int) (pre : List Candidate) (c : Candidate)
    (post : List Candidate) (hpre : ∀ p ∈ pre, fails K p) (ho : ¬ opens K c)
    (msg : String) (tmo : Bool) (s : TcpSocketClient) :
    ∃ tr,
      (connectLoop K t (pre ++ c :: post) msg tmo s).trace =
        tr ++ [OsCall.socket c.ai.ai_family c.ai.ai_socktype c.ai.ai_protocol K.SOCKET_ERROR] ∧
      (socketCalls tr = pre.map socketArgs ∧
       connectCalls tr = pre.map connectArgs ∧
       waitCalls tr = waitsFor K t pre) ∧
      (connectLoop K t (pre ++ c :: post) msg tmo s).thrown =
        some { code := ErrCode.IGNITE_ERR_GENERIC,
               msg := "Socket creation failed: " ++ c.os.socketErrMsg } ∧
      (connectLoop K t (pre ++ c :: post) msg tmo s).client.socketHandle = K.SOCKET_ERROR := by
  obtain ⟨tr, m, b, s1, h1, _, _, h5⟩ := connectLoop_skip K t pre hpre msg tmo s
  have ha := attempt_of_not_opens K t c s1 ho
  have hstep : (attempt K t c s1).step = Step.raise
      { code := ErrCode.IGNITE_ERR_GENERIC,
        msg := "Socket creation failed: " ++ c.os.socketErrMsg } := by
    rw [ha]
  refine ⟨tr, ?_, h1, ?_, ?_⟩
  · rw [h5 (c :: post), connectLoop_cons_raise K t c post m b s1 _ hstep, ha]
  · rw [h5 (c :: post), connectLoop_cons_raise K t c post m b s1 _ hstep]
  · rw [h5 (c :: post), connectLoop_cons_raise K t c post m b s1 _ hstep, ha]

/-- Every list of nodes is of one of three shapes: a first non-failing node
succeeds, or its socket cannot be opened, or all nodes fail. -/
theorem candidates_cases (K : Consts) (cands : List Candidate) :
    (∃ pre w post, cands = pre ++ w :: post ∧ (∀ p ∈ pre, fails K p) ∧
        opens K w ∧ succeeds K w) ∨
    (∃ pre c post, cands = pre ++ c :: post ∧ (∀ p ∈ pre, fails K p) ∧ ¬ opens K c) ∨
    (∀ p ∈ cands, fails K p) := by
  induction cands with
  | nil =>
    right
    right
    intro p hp
    simp at hp
  | cons c rest ih =>
    by_cases ho : opens K c
    · by_cases hs : succeeds K c
      · left
        exact ⟨[], c, rest, rfl, fun p hp => by simp at hp, ho, hs⟩
      · have hf : fails K c := ⟨ho, hs⟩
        rcases ih with ⟨pre, w, post, h1, h2, h3, h4⟩ | ⟨pre, d, post, h1, h2, h3⟩ | h
        · left
          refine ⟨c :: pre, w, post, by rw [h1]; rfl, ?_, h3, h4⟩
          intro p hp
          rcases List.mem_cons.mp hp with h | h
          · rw [h]
            exact hf
          · exact h2 p h
        · right
          left
          refine ⟨c :: pre, d, post, by rw [h1]; rfl, ?_, h3⟩
          intro p hp
          rcases List.mem_cons.mp hp with h | h
          · rw [h]
            exact hf
          · exact h2 p h
        · right
          right
          intro p hp
          rcases List.mem_cons.mp hp with h1 | h1
          · rw [h1]
            exact hf
          · exact h p h1
    · right
      left
      exact ⟨[], c, rest, rfl, fun p hp => by simp at hp, ho⟩

/-! ## The whole call -/

/-- `Connect` when the first node that does not fail succeeds. -/
theorem Connect_win (K : Consts) (s : TcpSocketClient) (hostname : String) (port : UInt16)
    (timeout : Int) (dns : Resolution) (pre : List Candidate) (w : Candidate)
    (post : List Candidate) (hres : dns.res = 0) (hcands : dns.result = pre ++ w :: post)
    (hpre : ∀ p ∈ pre, fails K p) (ho : opens K w) (hs : succeeds K w) :
    (Connect K s hostname port timeout dns).outcome = Outcome.returned true ∧
    (Connect K s hostname port timeout dns).client =
      { socketHandle := w.os.socket, blocking := blockingAfter w } ∧
    socketCalls (Connect K s hostname port timeout dns).trace = (pre ++ [w]).map socketArgs ∧
    connectCalls (Connect K s hostname port timeout dns).trace = (pre ++ [w]).map connectArgs ∧
    waitCalls (Connect K s hostname port timeout dns).trace = waitsFor K timeout (pre ++ [w]) := by
  obtain ⟨h1, h2, h3, h4, h5⟩ :=
    connectLoop_win K timeout pre w post hpre ho hs "Failed to resolve host" false s
  have hne : ¬ (w.os.socket = K.SOCKET_ERROR) := ho
  unfold Connect
  simp only [hres, hcands, ne_eq, not_true_eq_false, if_false, h1, h2, hne]
  simp only [socketCalls_append, connectCalls_append, waitCalls_append, socketCalls_cons,
    connectCalls_cons, waitCalls_cons, socketCalls_nil, connectCalls_nil, waitCalls_nil,
    List.append_nil, List.nil_append, h3, h4, h5, and_self]

/-- `Connect` when every node fails: the values the last node left decide
between `return false` and the exception. -/
theorem Connect_exhaust (K : Consts) (s : TcpSocketClient) (hostname : String) (port : UInt16)
    (timeout : Int) (dns : Resolution) (pre : List Candidate) (l : Candidate)
    (hres : dns.res = 0) (hcands : dns.result = pre ++ [l])
    (hpre : ∀ p ∈ pre, fails K p) (hl : fails K l) :
    (Connect K s hostname port timeout dns).outcome =
      (if isTimeoutAfter K l = true then Outcome.returned false
       else Outcome.thrown (ThrowNetworkError (lastErrorMsgAfter K l))) ∧
    (Connect K s hostname port timeout dns).client =
      { socketHandle := K.SOCKET_ERROR, blocking := blockingAfter l } := by
  obtain ⟨h1, h2, h3, h4, _, _, _⟩ :=
    connectLoop_exhaust K timeout pre l hpre hl "Failed to resolve host" false s
  unfold Connect
  simp only [hres, hcands, ne_eq, not_true_eq_false, if_false, h1, h2, h3, h4, if_true]
  cases isTimeoutAfter K l <;> simp

/-- `Connect` when a socket cannot be opened for the first node that does not
fail. -/
theorem Connect_openfail (K : Consts) (s : TcpSocketClient) (hostname : String) (port : UInt16)
    (timeout : Int) (dns : Resolution) (pre : List Candidate) (c : Candidate)
    (post : List Candidate) (hres : dns.res = 0) (hcands : dns.result = pre ++ c :: post)
    (hpre : ∀ p ∈ pre, fails K p) (ho : ¬ opens K c) :
    (Connect K s hostname port timeout dns).outcome =
      Outcome.thrown { code := ErrCode.IGNITE_ERR_GENERIC,
                       msg := "Socket creation failed: " ++ c.os.socketErrMsg } ∧
    (Connect K s hostname port timeout dns).client.socketHandle = K.SOCKET_ERROR ∧
    ∃ tr,
      (Connect K s hostname port timeout dns).trace =
        tr ++ [OsCall.socket c.ai.ai_family c.ai.ai_socktype c.ai.ai_protocol K.SOCKET_ERROR] ∧
      socketCalls tr = pre.map socketArgs ∧
      connectCalls tr = pre.map connectArgs ∧
      waitCalls tr = waitsFor K timeout pre := by
  obtain ⟨tr, h1, ⟨h2, h3, h4⟩, h5, h6⟩ :=
    connectLoop_openfail K timeout pre c post hpre ho "Failed to resolve host" false s
  unfold Connect
  simp only [hres, hcands, ne_eq, not_true_eq_false, if_false, h5, h6, h1, true_and]
  refine ⟨OsCall.getaddrinfo hostname (toString port.toNat) 0 :: tr, ?_, ?_, ?_, ?_⟩
  · simp
  · rw [socketCalls_cons, h2]
    rfl
  · rw [connectCalls_cons, h3]
    rfl
  · rw [waitCalls_cons, h4]
    rfl

/-- `Connect` on a disconnected client when the list of nodes is empty. -/
theorem Connect_nil (K : Consts) (s : TcpSocketClient) (hostname : String) (port : UInt16)
    (timeout : Int) (dns : Resolution) (hdisc : s.socketHandle = K.SOCKET_ERROR)
    (hres : dns.res = 0) (hcands : dns.result = []) :
    (Connect K s hostname port timeout dns).outcome =
      Outcome.thrown (ThrowNetworkError "Failed to resolve host") ∧
    (Connect K s hostname port timeout dns).client = s := by
  unfold Connect
  simp [hres, hcands, connectLoop, hdisc]

/-- `Connect` when `getaddrinfo` fails. -/
theorem Connect_unresolved (K : Consts) (s : TcpSocketClient) (hostname : String)
    (port : UInt16) (timeout : Int) (dns : Resolution) (hres : dns.res ≠ 0) :
    Connect K s hostname port timeout dns =
      { outcome := Outcome.thrown (ThrowNetworkError
          ("Can not resolve host: " ++ hostname ++ ":" ++ toString port.toNat)),
        client := s,
        trace := [OsCall.getaddrinfo hostname (toString port.toNat) dns.res] } := by
  unfold Connect
  simp [hres]

theorem list_eq_nil_or_snoc (cands : List Candidate) :
    cands = [] ∨ ∃ pre l, cands = pre ++ [l] := by
  rcases List.eq_nil_or_concat cands with h | ⟨pre, l, h⟩
  · exact Or.inl h
  · exact Or.inr ⟨pre, l, by rw [h, List.concat_eq_append]⟩

/-! ## Accounting of handles -/

theorem handlesFrom_append (K : Consts) (tbl : List Int) (a b : List OsCall) :
    handlesFrom K tbl (a ++ b) = handlesFrom K (handlesFrom K tbl a) b := by
  simp [handlesFrom, List.foldl_append]

theorem handlesFrom_cons (K : Consts) (tbl : List Int) (ev : OsCall) (tr : List OsCall) :
    handlesFrom K tbl (ev :: tr) = handlesFrom K (tableStep K tbl ev) tr := rfl

theorem handlesFrom_nil (K : Consts) (tbl : List Int) : handlesFrom K tbl [] = tbl := rfl

theorem Disciplined_append (K : Consts) (tbl : List Int) (a b : List OsCall) :
    Disciplined K tbl (a ++ b) ↔
      Disciplined K tbl a ∧ Disciplined K (handlesFrom K tbl a) b := by
  induction a generalizing tbl with
  | nil => simp [Disciplined, handlesFrom_nil]
  | cons ev a ih =>
    show (_ ∧ Disciplined K (tableStep K tbl ev) (a ++ b)) ↔
      (_ ∧ Disciplined K (tableStep K tbl ev) a) ∧ _
    rw [ih, handlesFrom_cons, and_assoc]

/-- In a disciplined trace that starts with at most one open handle, after
every initial segment at most one handle is open, and the numbers of handles
opened and closed differ by the number of open handles. -/
theorem Disciplined_take (K : Consts) (tr : List OsCall) :
    ∀ (tbl : List Int), tbl.length ≤ 1 → Disciplined K tbl tr → ∀ k,
      (handlesFrom K tbl (tr.take k)).length ≤ 1 ∧
      opened K (tr.take k) + tbl.length =
        closed (tr.take k) + (handlesFrom K tbl (tr.take k)).length := by
  induction tr with
  | nil =>
    intro tbl hlen _ k
    simp [handlesFrom_nil, opened, closed, hlen]
  | cons ev rest ih =>
    intro tbl hlen hd k
    cases k with
    | zero => simp [handlesFrom_nil, opened, closed, hlen]
    | succ k =>
      obtain ⟨hev, hrest⟩ := hd
      rw [List.take_succ_cons, handlesFrom_cons]
      cases ev with
      | socket f t p r =>
        simp only at hev
        subst hev
        by_cases hr : r = K.SOCKET_ERROR
        · have h := ih (tableStep K [] (OsCall.socket f t p r))
            (by simp [tableStep, hr]) hrest k
          simp only [tableStep, hr, if_true, opened, closed, List.length_nil] at h ⊢
          omega
        · have h := ih (tableStep K [] (OsCall.socket f t p r))
            (by simp [tableStep, hr]) hrest k
          simp only [tableStep, hr, if_false, opened, closed, List.length_nil,
            List.length_cons] at h ⊢
          omega
      | close fd =>
        simp only at hev
        subst hev
        have h := ih (tableStep K [fd] (OsCall.close fd)) (by simp [tableStep]) hrest k
        simp only [tableStep, List.erase_cons_head, opened, closed, List.length_nil,
          List.length_cons] at h ⊢
        omega
      | getaddrinfo a b c =>
        have h := ih tbl hlen hrest k
        simpa only [tableStep, opened, closed, Nat.zero_add] using h
      | freeaddrinfo =>
        have h := ih tbl hlen hrest k
        simpa only [tableStep, opened, closed, Nat.zero_add] using h
      | setsockopt a b c d e =>
        have h := ih tbl hlen hrest k
        simpa only [tableStep, opened, closed, Nat.zero_add] using h
      | fcntlGetFl a b =>
        have h := ih tbl hlen hrest k
        simpa only [tableStep, opened, closed, Nat.zero_add] using h
      | fcntlSetFl a b c =>
        have h := ih tbl hlen hrest k
        simpa only [tableStep, opened, closed, Nat.zero_add] using h
      | connect a b c d =>
        have h := ih tbl hlen hrest k
        simpa only [tableStep, opened, closed, Nat.zero_add] using h
      | waitOnSocket a b c d =>
        have h := ih tbl hlen hrest k
        simpa only [tableStep, opened, closed, Nat.zero_add] using h
      | send a b c =>
        have h := ih tbl hlen hrest k
        simpa only [tableStep, opened, closed, Nat.zero_add] using h
      | recv a b c =>
        have h := ih tbl hlen hrest k
        simpa only [tableStep, opened, closed, Nat.zero_add] using h

/-- In a disciplined trace no handle is open when a `socket` call is made. -/
theorem Disciplined_socket (K : Consts) (tr : List OsCall) :
    ∀ (tbl : List Int), Disciplined K tbl tr → ∀ k f t p r,
      tr[k]? = some (OsCall.socket f t p r) → handlesFrom K tbl (tr.take k) = [] := by
  induction tr with
  | nil =>
    intro tbl _ k f t p r h
    simp at h
  | cons ev rest ih =>
    intro tbl hd k f t p r h
    obtain ⟨hev, hrest⟩ := hd
    cases k with
    | zero =>
      simp only [List.getElem?_cons_zero, Option.some.injEq] at h
      subst h
      simpa [handlesFrom_nil] using hev
    | succ k =>
      rw [List.getElem?_cons_succ] at h
      rw [List.take_succ_cons, handlesFrom_cons]
      exact ih _ hrest k f t p r h

theorem TrySetOptions_Disciplined (K : Consts) (os : AttemptOs) (s : TcpSocketClient)
    (tbl : List Int) : Disciplined K tbl (TrySetOptions K os s).2 := by
  unfold TrySetOptions setNonBlocking
  split <;> split <;> simp [Disciplined, tableStep]

theorem TrySetOptions_handlesFrom (K : Consts) (os : AttemptOs) (s : TcpSocketClient)
    (tbl : List Int) : handlesFrom K tbl (TrySetOptions K os s).2 = tbl := by
  unfold TrySetOptions setNonBlocking
  split <;> split <;> simp [handlesFrom, tableStep]

/-- One loop iteration, whatever the answers of the system: its trace is
disciplined, it leaves open exactly the handle it leaves in the client, and it
leaves a handle in the client only when it ends with `break`. -/
theorem attempt_accounting (K : Consts) (t : Int) (c : Candidate) (s : TcpSocketClient) :
    Disciplined K [] (attempt K t c s).trace ∧
    handlesFrom K [] (attempt K t c s).trace =
      (if (attempt K t c s).client.socketHandle = K.SOCKET_ERROR then []
       else [(attempt K t c s).client.socketHandle]) ∧
    ((attempt K t c s).step ≠ Step.brk →
      (attempt K t c s).client.socketHandle = K.SOCKET_ERROR) := by
  by_cases ho : opens K c
  · unfold opens at ho
    unfold attempt
    simp only [ho, if_false, TrySetOptions_client, WaitOnSocket, Close_mk K _ _ ho]
    by_cases hc : K.SOCKET_ERROR = c.os.connect
    · rw [if_pos hc]
      by_cases he : c.os.errno ≠ EWOULDBLOCK ∧ c.os.errno ≠ EINPROGRESS
      · rw [if_pos he]
        simp [Disciplined_append, handlesFrom_append, handlesFrom_cons, handlesFrom_nil,
          Disciplined, tableStep, TrySetOptions_Disciplined, TrySetOptions_handlesFrom, ho]
      · rw [if_neg he]
        by_cases hw : c.os.wait < 0 ∨ c.os.wait = K.TIMEOUT
        · rw [if_pos hw]
          simp [Disciplined_append, handlesFrom_append, handlesFrom_cons, handlesFrom_nil,
            Disciplined, tableStep, TrySetOptions_Disciplined, TrySetOptions_handlesFrom, ho]
        · rw [if_neg hw]
          simp [Disciplined_append, handlesFrom_append, handlesFrom_cons, handlesFrom_nil,
            Disciplined, tableStep, TrySetOptions_Disciplined, TrySetOptions_handlesFrom, ho]
    · rw [if_neg hc]
      simp [Disciplined_append, handlesFrom_append, handlesFrom_cons, handlesFrom_nil,
        Disciplined, tableStep, TrySetOptions_Disciplined, TrySetOptions_handlesFrom, ho]
  · rw [attempt_of_not_opens K t c s ho]
    simp [Disciplined, handlesFrom, tableStep]

/-- The loop on a client that starts disconnected, whatever the answers of the
system: its trace is disciplined, it leaves open exactly the handle it leaves
in the client, and it leaves none when an exception leaves the loop. -/
theorem connectLoop_accounting (K : Consts) (t : Int) (cands : List Candidate) :
    ∀ (msg : String) (tmo : Bool) (s : TcpSocketClient), s.socketHandle = K.SOCKET_ERROR →
      Disciplined K [] (connectLoop K t cands msg tmo s).trace ∧
      handlesFrom K [] (connectLoop K t cands msg tmo s).trace =
        (if (connectLoop K t cands msg tmo s).client.socketHandle = K.SOCKET_ERROR then []
         else [(connectLoop K t cands msg tmo s).client.socketHandle]) ∧
      ((connectLoop K t cands msg tmo s).thrown ≠ none →
        (connectLoop K t cands msg tmo s).client.socketHandle = K.SOCKET_ERROR) := by
  induction cands with
  | nil =>
    intro msg tmo s hs
    simp [connectLoop, Disciplined, handlesFrom, hs]
  | cons c rest ih =>
    intro msg tmo s _
    obtain ⟨h1, h2, h3⟩ := attempt_accounting K t c s
    cases hstep : (attempt K t c s).step with
    | brk =>
      rw [connectLoop_cons_brk K t c rest msg tmo s hstep]
      exact ⟨h1, h2, fun h => absurd rfl h⟩
    | raise e =>
      rw [connectLoop_cons_raise K t c rest msg tmo s e hstep]
      have hse := h3 (by rw [hstep]; simp)
      exact ⟨h1, h2, fun _ => hse⟩
    | cont m b =>
      rw [connectLoop_cons_cont K t c rest msg tmo s m b hstep]
      have hse := h3 (by rw [hstep]; simp)
      obtain ⟨i1, i2, i3⟩ := ih m b (attempt K t c s).client hse
      rw [hse, if_pos rfl] at h2
      refine ⟨?_, ?_, i3⟩
      · rw [Disciplined_append, h2]
        exact ⟨h1, i1⟩
      · show handlesFrom K [] ((attempt K t c s).trace ++ _) = _
        rw [handlesFrom_append, h2]
        exact i2

/-- `Connect` on a disconnected client, whatever the answers of the system:
its trace is disciplined and the handles it leaves open are the handle of the
client when it returns `true` and none otherwise. -/
theorem Connect_accounting (K : Consts) (s : TcpSocketClient) (hostname : String)
    (port : UInt16) (timeout : Int) (dns : Resolution)
    (hdisc : s.socketHandle = K.SOCKET_ERROR) :
    Disciplined K [] (Connect K s hostname port timeout dns).trace ∧
    openHandles K (Connect K s hostname port timeout dns).trace =
      (if (Connect K s hostname port timeout dns).outcome = Outcome.returned true then
         [(Connect K s hostname port timeout dns).client.socketHandle]
       else []) := by
  obtain ⟨h1, h2, h3⟩ :=
    connectLoop_accounting K timeout dns.result "Failed to resolve host" false s hdisc
  unfold openHandles Connect
  by_cases hres : dns.res = 0
  · simp only [hres, ne_eq, not_true_eq_false, if_false]
    cases hthrown : (connectLoop K timeout dns.result "Failed to resolve host" false s).thrown with
    | some e =>
      have hse := h3 (by rw [hthrown]; simp)
      rw [hse, if_pos rfl] at h2
      simp [Disciplined, tableStep, handlesFrom_cons, h1, h2]
    | none =>
      by_cases hse :
          (connectLoop K timeout dns.result "Failed to resolve host" false s).client.socketHandle
            = K.SOCKET_ERROR
      · rw [if_pos hse] at h2
        simp only [hse, if_true]
        split <;>
          simp [Disciplined, tableStep, handlesFrom_cons, handlesFrom_append, handlesFrom_nil,
            Disciplined_append, h1, h2]
      · rw [if_neg hse] at h2
        simp [hse, Disciplined, tableStep, handlesFrom_cons, handlesFrom_append,
          handlesFrom_nil, Disciplined_append, h1, h2]
  · simp [hres, Disciplined, tableStep, handlesFrom]

/-! ## Properties of `Connect` -/

/-- C1: on a disconnected client, after a successful resolution and with a
socket for every attempted node, `Connect` returns `true` exactly when some node
succeeds; then the nodes before the first succeeding node `ci` all failed, the
`socket` and `connect` calls of the trace are those of the nodes up to `ci`, in
resolver order and none behind `ci`, and the handle is the socket of `ci`. -/
theorem connect_true_iff_first_success (K : Consts) (s : TcpSocketClient) (hostname : String)
    (port : UInt16) (timeout : Int) (dns : Resolution)
    (hdisc : s.socketHandle = K.SOCKET_ERROR) (hres : dns.res = 0)
    (hopen : ∀ pre c post, dns.result = pre ++ c :: post →
      (∀ p ∈ pre, ¬ succeeds K p) → opens K c) :
    ((Connect K s hostname port timeout dns).outcome = Outcome.returned true ↔
        ∃ c ∈ dns.result, succeeds K c) ∧
    ((Connect K s hostname port timeout dns).outcome = Outcome.returned true →
      ∃ pre ci post, dns.result = pre ++ ci :: post ∧
        (∀ p ∈ pre, ¬ succeeds K p) ∧ succeeds K ci ∧
        (Connect K s hostname port timeout dns).client.socketHandle = ci.os.socket ∧
        socketCalls (Connect K s hostname port timeout dns).trace =
          (pre ++ [ci]).map socketArgs ∧
        connectCalls (Connect K s hostname port timeout dns).trace =
          (pre ++ [ci]).map connectArgs) := by
  rcases candidates_cases K dns.result with
    ⟨pre, w, post, hc, hp, ho, hs⟩ | ⟨pre, c, post, hc, hp, ho⟩ | hall
  · obtain ⟨h1, h2, h3, h4, _⟩ := Connect_win K s hostname port timeout dns pre w post hres hc hp ho hs
    refine ⟨⟨fun _ => ⟨w, ?_, hs⟩, fun _ => h1⟩, fun _ => ?_⟩
    · rw [hc]
      simp
    · refine ⟨pre, w, post, hc, fun p hp1 => (hp p hp1).2, hs, ?_, h3, h4⟩
      rw [h2]
  · exact absurd (hopen pre c post hc (fun p hp1 => (hp p hp1).2)) ho
  · have hno : ¬ ∃ c ∈ dns.result, succeeds K c := by
      rintro ⟨c, hc, hs⟩
      exact (hall c hc).2 hs
    have hnt : (Connect K s hostname port timeout dns).outcome ≠ Outcome.returned true := by
      rcases list_eq_nil_or_snoc dns.result with hnil | ⟨pre, l, hsn⟩
      · rw [(Connect_nil K s hostname port timeout dns hdisc hres hnil).1]
        simp
      · have hpre : ∀ p ∈ pre, fails K p := fun p hp1 =>
          hall p (by rw [hsn]; exact List.mem_append_left _ hp1)
        have hl : fails K l := hall l (by rw [hsn]; simp)
        rw [(Connect_exhaust K s hostname port timeout dns pre l hres hsn hpre hl).1]
        split <;> simp
    exact ⟨⟨fun h => absurd h hnt, fun h => absurd h hno⟩, fun h => absurd h hnt⟩

/-- C2: after a successful resolution, when every node fails and the last
node fails by a readiness-wait timeout (would-block or in-progress, then the
wait returns the timeout value), `Connect` returns `false` and the handle is
invalid, whatever the earlier nodes failed with (they may all time out too)
and whatever the state before the call. -/
theorem connect_last_timeout_returns_false (K : Consts) (s : TcpSocketClient)
    (hostname : String) (port : UInt16) (timeout : Int) (dns : Resolution)
    (pre : List Candidate) (l : Candidate)
    (hres : dns.res = 0) (hcands : dns.result = pre ++ [l])
    (hpre : ∀ p ∈ pre, fails K p) (hlo : opens K l) (hlb : wouldBlock K l)
    (hlt : l.os.wait = K.TIMEOUT) :
    (Connect K s hostname port timeout dns).outcome = Outcome.returned false ∧
    (Connect K s hostname port timeout dns).client.socketHandle = K.SOCKET_ERROR := by
  have hl : fails K l := by
    refine ⟨hlo, ?_⟩
    rintro (h | ⟨_, _, h⟩)
    · exact h hlb.1
    · exact h hlt
  have hnf : ¬ failsNow K l := by
    rintro ⟨_, h1, h2⟩
    rcases hlb.2 with h | h
    · exact h1 h
    · exact h2 h
  obtain ⟨h1, h2⟩ := Connect_exhaust K s hostname port timeout dns pre l hres hcands hpre hl
  rw [h1, h2]
  simp [isTimeoutAfter, hnf]

/-- C3 (amended): after a successful resolution, when every node fails and the
`connect` of the last node fails immediately with an error other than
would-block or in-progress, `Connect` throws an error whose message is
"Failed to establish connection with the host: " followed by the message of that
error; when instead the readiness wait of the last node returns a negative
value, `Connect` returns `false` with an invalid handle, as for a timeout. -/
theorem connect_last_hard_failure_raises (K : Consts) (s : TcpSocketClient)
    (hostname : String) (port : UInt16) (timeout : Int) (dns : Resolution)
    (pre : List Candidate) (l : Candidate)
    (hres : dns.res = 0) (hcands : dns.result = pre ++ [l])
    (hpre : ∀ p ∈ pre, fails K p) (hlo : opens K l) :
    (failsNow K l →
      (Connect K s hostname port timeout dns).outcome =
        Outcome.thrown (ThrowNetworkError
          ("Failed to establish connection with the host" ++ ": " ++
            K.GetSocketErrorMessage l.os.errno))) ∧
    (wouldBlock K l → l.os.wait < 0 →
      (Connect K s hostname port timeout dns).outcome = Outcome.returned false ∧
      (Connect K s hostname port timeout dns).client.socketHandle = K.SOCKET_ERROR) := by
  constructor
  · intro hfn
    have hl : fails K l := by
      refine ⟨hlo, ?_⟩
      rintro (h | ⟨⟨_, h⟩, _⟩)
      · exact h hfn.1
      · rcases h with h | h
        · exact hfn.2.1 h
        · exact hfn.2.2 h
    rw [(Connect_exhaust K s hostname port timeout dns pre l hres hcands hpre hl).1]
    simp [isTimeoutAfter, lastErrorMsgAfter, failureMessage, hfn]
  · intro hlb hneg
    have hl : fails K l := by
      refine ⟨hlo, ?_⟩
      rintro (h | ⟨_, h, _⟩)
      · exact h hlb.1
      · omega
    have hnf : ¬ failsNow K l := by
      rintro ⟨_, h1, h2⟩
      rcases hlb.2 with h | h
      · exact h1 h
      · exact h2 h
    obtain ⟨h1, h2⟩ := Connect_exhaust K s hostname port timeout dns pre l hres hcands hpre hl
    rw [h1, h2]
    simp [isTimeoutAfter, hnf]

/-- C4: when `getaddrinfo` fails, `Connect` throws at once: the only call of
the trace is `getaddrinfo` (no socket, option, connect or wait), and the client
is unchanged. -/
theorem connect_resolution_failure (K : Consts) (s : TcpSocketClient)
    (hostname : String) (port : UInt16) (timeout : Int) (dns : Resolution)
    (hres : dns.res ≠ 0) :
    (Connect K s hostname port timeout dns).outcome =
      Outcome.thrown (ThrowNetworkError
        ("Can not resolve host: " ++ hostname ++ ":" ++ toString port.toNat)) ∧
    (Connect K s hostname port timeout dns).trace =
      [OsCall.getaddrinfo hostname (toString port.toNat) dns.res] ∧
    (Connect K s hostname port timeout dns).client = s := by
  rw [Connect_unresolved K s hostname port timeout dns hres]
  exact ⟨rfl, rfl, rfl⟩

/-- C5: after a successful resolution, when the nodes before `c` fail and no
socket can be opened for `c`, `Connect` throws the socket-creation error; the
failed `socket` call for `c` is the last call of the trace, and before it the
trace holds the `socket`, `connect` and wait calls of the earlier nodes only:
nothing is issued for `c` after its `socket` call and nothing for the nodes
behind it. -/
theorem connect_socket_failure_aborts (K : Consts) (s : TcpSocketClient)
    (hostname : String) (port : UInt16) (timeout : Int) (dns : Resolution)
    (pre : List Candidate) (c : Candidate) (post : List Candidate)
    (hres : dns.res = 0) (hcands : dns.result = pre ++ c :: post)
    (hpre : ∀ p ∈ pre, fails K p) (hc : ¬ opens K c) :
    (Connect K s hostname port timeout dns).outcome =
      Outcome.thrown { code := ErrCode.IGNITE_ERR_GENERIC,
                       msg := "Socket creation failed: " ++ c.os.socketErrMsg } ∧
    ∃ tr,
      (Connect K s hostname port timeout dns).trace =
        tr ++ [OsCall.socket c.ai.ai_family c.ai.ai_socktype c.ai.ai_protocol K.SOCKET_ERROR] ∧
      socketCalls tr = pre.map socketArgs ∧
      connectCalls tr = pre.map connectArgs ∧
      waitCalls tr = waitsFor K timeout pre := by
  obtain ⟨h1, _, h2⟩ := Connect_openfail K s hostname port timeout dns pre c post hres hcands hpre hc
  exact ⟨h1, h2⟩

/-- C6 (amended): for every state before the call and all answers of the
system, when `Connect` throws after a successful resolution (a socket could not
be opened, or the nodes are exhausted) or returns `false`, the handle is
invalid afterwards; when it throws for a failed resolution, the client is
exactly as before the call (so the handle is invalid if it was before). -/
theorem connect_failure_leaves_handle (K : Consts) (s : TcpSocketClient)
    (hostname : String) (port : UInt16) (timeout : Int) (dns : Resolution) :
    (dns.res = 0 → (Connect K s hostname port timeout dns).outcome ≠ Outcome.returned true →
      (Connect K s hostname port timeout dns).client.socketHandle = K.SOCKET_ERROR) ∧
    (dns.res ≠ 0 → (∃ e, (Connect K s hostname port timeout dns).outcome = Outcome.thrown e) ∧ (Connect K s hostname port timeout dns).client = s) := by
  constructor
  · intro hres hnt
    rcases candidates_cases K dns.result with
      ⟨pre, w, post, hc, hp, ho, hs⟩ | ⟨pre, c, post, hc, hp, ho⟩ | hall
    · exact absurd (Connect_win K s hostname port timeout dns pre w post hres hc hp ho hs).1 hnt
    · exact (Connect_openfail K s hostname port timeout dns pre c post hres hc hp ho).2.1
    · rcases list_eq_nil_or_snoc dns.result with hnil | ⟨pre, l, hsn⟩
      · by_cases hd : s.socketHandle = K.SOCKET_ERROR
        · rw [(Connect_nil K s hostname port timeout dns hd hres hnil).2]
          exact hd
        · exfalso
          apply hnt
          unfold Connect
          simp [hres, hnil, connectLoop, hd]
      · have hpre : ∀ p ∈ pre, fails K p := fun p hp1 =>
          hall p (by rw [hsn]; exact List.mem_append_left _ hp1)
        have hl : fails K l := hall l (by rw [hsn]; simp)
        rw [(Connect_exhaust K s hostname port timeout dns pre l hres hsn hpre hl).2]
  · intro hres
    rw [Connect_unresolved K s hostname port timeout dns hres]
    exact ⟨⟨_, rfl⟩, rfl⟩

/-- C8: on a disconnected client and for all answers of the system: after every
initial segment of the trace at most one socket opened by the call is open and
the sockets opened exceed the sockets closed by the number of open handles;
no handle is open when a `socket` call is made; at the end one handle, the
handle of the client, is open if `Connect` returned `true`, and none otherwise.
In particular this holds when all nodes but the last fail immediately and the
last one succeeds. -/
theorem connect_socket_accounting (K : Consts) (s : TcpSocketClient)
    (hostname : String) (port : UInt16) (timeout : Int) (dns : Resolution)
    (hdisc : s.socketHandle = K.SOCKET_ERROR) :
    (∀ k, (openHandles K ((Connect K s hostname port timeout dns).trace.take k)).length ≤ 1 ∧
      opened K ((Connect K s hostname port timeout dns).trace.take k) =
        closed ((Connect K s hostname port timeout dns).trace.take k) + (openHandles K ((Connect K s hostname port timeout dns).trace.take k)).length) ∧
    (∀ k f t p r, (Connect K s hostname port timeout dns).trace[k]? = some (OsCall.socket f t p r) →
      openHandles K ((Connect K s hostname port timeout dns).trace.take k) = []) ∧
    ((Connect K s hostname port timeout dns).outcome = Outcome.returned true →
      opened K (Connect K s hostname port timeout dns).trace = closed (Connect K s hostname port timeout dns).trace + 1 ∧
      openHandles K (Connect K s hostname port timeout dns).trace = [(Connect K s hostname port timeout dns).client.socketHandle]) ∧
    ((Connect K s hostname port timeout dns).outcome ≠ Outcome.returned true →
      opened K (Connect K s hostname port timeout dns).trace = closed (Connect K s hostname port timeout dns).trace ∧ openHandles K (Connect K s hostname port timeout dns).trace = []) ∧
    (∀ pre w, dns.res = 0 → dns.result = pre ++ [w] →
      (∀ p ∈ pre, opens K p ∧ failsNow K p) → opens K w → succeeds K w →
      (Connect K s hostname port timeout dns).outcome = Outcome.returned true ∧
      opened K (Connect K s hostname port timeout dns).trace = closed (Connect K s hostname port timeout dns).trace + 1 ∧
      openHandles K (Connect K s hostname port timeout dns).trace = [w.os.socket] ∧
      (Connect K s hostname port timeout dns).client.socketHandle = w.os.socket) := by
  obtain ⟨hd, ht⟩ := Connect_accounting K s hostname port timeout dns hdisc
  have htake := Disciplined_take K (Connect K s hostname port timeout dns).trace [] (by simp) hd
  have hcount : ∀ k, opened K ((Connect K s hostname port timeout dns).trace.take k) =
      closed ((Connect K s hostname port timeout dns).trace.take k) + (openHandles K ((Connect K s hostname port timeout dns).trace.take k)).length := by
    intro k
    have h := (htake k).2
    simp only [List.length_nil, Nat.add_zero] at h
    exact h
  have hend : opened K (Connect K s hostname port timeout dns).trace = closed (Connect K s hostname port timeout dns).trace + (openHandles K (Connect K s hostname port timeout dns).trace).length := by
    have h := hcount (Connect K s hostname port timeout dns).trace.length
    rw [List.take_length] at h
    exact h
  have htrue : (Connect K s hostname port timeout dns).outcome = Outcome.returned true →
      opened K (Connect K s hostname port timeout dns).trace = closed (Connect K s hostname port timeout dns).trace + 1 ∧
      openHandles K (Connect K s hostname port timeout dns).trace = [(Connect K s hostname port timeout dns).client.socketHandle] := by
    intro hok
    rw [if_pos hok] at ht
    rw [hend, ht]
    exact ⟨rfl, rfl⟩
  refine ⟨fun k => ⟨(htake k).1, hcount k⟩, ?_, htrue, ?_, ?_⟩
  · intro k f t p r h
    exact Disciplined_socket K (Connect K s hostname port timeout dns).trace [] hd k f t p r h
  · intro hnt
    rw [if_neg hnt] at ht
    rw [hend, ht]
    exact ⟨rfl, rfl⟩
  · intro pre w hres hc hpre ho hs
    have hf : ∀ p ∈ pre, fails K p := by
      intro p hp
      obtain ⟨hpo, hpf⟩ := hpre p hp
      refine ⟨hpo, ?_⟩
      rintro (h | ⟨⟨_, h⟩, _⟩)
      · exact h hpf.1
      · rcases h with h | h
        · exact hpf.2.1 h
        · exact hpf.2.2 h
    have hc2 : dns.result = pre ++ w :: [] := hc
    obtain ⟨h1, h2, _⟩ := Connect_win K s hostname port timeout dns pre w [] hres hc2 hf ho hs
    obtain ⟨h3, h4⟩ := htrue h1
    refine ⟨h1, h3, ?_, ?_⟩
    · rw [h4, h2]
    · rw [h2]

/-- C9: `Close` is a total function of the client state (it has no exception
path); it leaves the handle invalid and the blocking flag as it was; a second
`Close` changes nothing and issues no call; on a new client it changes nothing
and issues no call; on a valid handle it issues exactly one `close`, on that
handle. -/
theorem close_idempotent (K : Consts) (s : TcpSocketClient) :
    (Close K s).1.socketHandle = K.SOCKET_ERROR ∧
    (Close K s).1.blocking = s.blocking ∧
    Close K (Close K s).1 = ((Close K s).1, []) ∧
    (Close K s).2 =
      (if s.socketHandle = K.SOCKET_ERROR then [] else [OsCall.close s.socketHandle]) ∧
    Close K (new K) = (new K, []) := by
  by_cases h : s.socketHandle = K.SOCKET_ERROR
  · simp [Close, InternalClose, h, new]
  · simp [Close, InternalClose, h, new]

/-- The `fcntl` calls of `TrySetOptions`: `F_GETFL` on the handle and, unless
it returned a negative value, `F_SETFL` on the handle with the flags read and
the bit `O_NONBLOCK`. -/
theorem TrySetOptions_fcntlCalls (K : Consts) (os : AttemptOs) (s : TcpSocketClient) :
    fcntlCalls (TrySetOptions K os s).2 =
      (if os.getfl < 0 then [OsCall.fcntlGetFl s.socketHandle os.getfl]
       else [OsCall.fcntlGetFl s.socketHandle os.getfl,
             OsCall.fcntlSetFl s.socketHandle (Int.ofNat (os.getfl.toNat ||| O_NONBLOCK))
               os.setfl]) := by
  unfold TrySetOptions setNonBlocking
  by_cases hg : os.getfl < 0 <;> by_cases hk : K.SOCKET_ERROR = os.keepalive <;>
    simp [hg, hk, fcntlCalls, isFcntl]

/-- Some `fcntl` call of `TrySetOptions` returned a negative value exactly when
`blocking` is left `true`. -/
theorem TrySetOptions_any_fcntlFailed (K : Consts) (os : AttemptOs) (s : TcpSocketClient) :
    (TrySetOptions K os s).2.any fcntlFailed = decide (os.getfl < 0 ∨ os.setfl < 0) := by
  unfold TrySetOptions setNonBlocking
  by_cases hg : os.getfl < 0 <;> by_cases hk : K.SOCKET_ERROR = os.keepalive <;>
    simp [hg, hk, fcntlFailed]

/-- The flags handed to `F_SETFL` have the bit `O_NONBLOCK`. -/
theorem nonblock_bit_set (n : Nat) : (n ||| O_NONBLOCK) &&& O_NONBLOCK = O_NONBLOCK := by
  apply Nat.eq_of_testBit_eq
  intro i
  simp only [Nat.testBit_and, Nat.testBit_or]
  cases Nat.testBit n i <;> cases Nat.testBit O_NONBLOCK i <;> rfl

/-- The trace of the iteration of a node that succeeds: the `socket` call, the
calls of `TrySetOptions` on the new handle, the `connect` call, and at most the
readiness wait behind it. -/
theorem attempt_win_trace (K : Consts) (t : Int) (c : Candidate) (s : TcpSocketClient)
    (ho : opens K c) (hs : succeeds K c) :
    ∃ after, socketCalls after = [] ∧
      (attempt K t c s).trace =
        OsCall.socket c.ai.ai_family c.ai.ai_socktype c.ai.ai_protocol c.os.socket ::
          ((TrySetOptions K c.os { socketHandle := c.os.socket, blocking := s.blocking }).2 ++
            OsCall.connect c.os.socket c.ai.ai_addr c.ai.ai_addrlen c.os.connect :: after) := by
  obtain ⟨hstep, _, _, _⟩ := attempt_of_succeeds K t c s ho hs
  unfold opens at ho
  unfold attempt at hstep ⊢
  simp only [ho, if_false, TrySetOptions_client, WaitOnSocket] at hstep ⊢
  by_cases hc : K.SOCKET_ERROR = c.os.connect
  · rw [if_pos hc] at hstep ⊢
    by_cases he : c.os.errno ≠ EWOULDBLOCK ∧ c.os.errno ≠ EINPROGRESS
    · rw [if_pos he] at hstep
      simp at hstep
    · rw [if_neg he] at hstep ⊢
      by_cases hw : c.os.wait < 0 ∨ c.os.wait = K.TIMEOUT
      · rw [if_pos hw] at hstep
        simp at hstep
      · rw [if_neg hw]
        exact ⟨[OsCall.waitOnSocket c.os.socket t false c.os.wait], rfl, by simp⟩
  · rw [if_neg hc]
    exact ⟨[], rfl, by simp⟩

/-- The trace of `Connect` when the first node that does not fail succeeds:
behind the calls for the failing nodes come the `socket` call of the winning
node, the option calls on its socket and its `connect` call. -/
theorem Connect_win_trace (K : Consts) (s : TcpSocketClient) (hostname : String)
    (port : UInt16) (timeout : Int) (dns : Resolution) (pre : List Candidate) (w : Candidate)
    (post : List Candidate) (hres : dns.res = 0) (hcands : dns.result = pre ++ w :: post)
    (hpre : ∀ p ∈ pre, fails K p) (ho : opens K w) (hs : succeeds K w) :
    ∃ before opts after,
      (Connect K s hostname port timeout dns).trace =
        before ++
          OsCall.socket w.ai.ai_family w.ai.ai_socktype w.ai.ai_protocol w.os.socket ::
            (opts ++
              OsCall.connect w.os.socket w.ai.ai_addr w.ai.ai_addrlen w.os.connect :: after) ∧
      socketCalls before = pre.map socketArgs ∧
      socketCalls after = [] ∧
      fcntlCalls opts =
        (if w.os.getfl < 0 then [OsCall.fcntlGetFl w.os.socket w.os.getfl]
         else [OsCall.fcntlGetFl w.os.socket w.os.getfl,
               OsCall.fcntlSetFl w.os.socket (Int.ofNat (w.os.getfl.toNat ||| O_NONBLOCK))
                 w.os.setfl]) ∧
      opts.any fcntlFailed = blockingAfter w := by
  obtain ⟨tr, m, b, s1, ⟨h1, _, _⟩, _, _, h5⟩ :=
    connectLoop_skip K timeout pre hpre "Failed to resolve host" false s
  obtain ⟨hstep, hcl, _, _⟩ := attempt_of_succeeds K timeout w s1 ho hs
  obtain ⟨after, hafter, htr⟩ := attempt_win_trace K timeout w s1 ho hs
  have hne : ¬ (w.os.socket = K.SOCKET_ERROR) := ho
  refine ⟨OsCall.getaddrinfo hostname (toString port.toNat) dns.res :: tr,
    (TrySetOptions K w.os { socketHandle := w.os.socket, blocking := s1.blocking }).2,
    after ++ [OsCall.freeaddrinfo], ?_, ?_, ?_, ?_, ?_⟩
  · unfold Connect
    simp only [hres, hcands, ne_eq, not_true_eq_false, if_false, h5 (w :: post),
      connectLoop_cons_brk K timeout w post m b s1 hstep, hcl, hne, htr]
    simp
  · rw [socketCalls_cons, h1]
    rfl
  · rw [socketCalls_append, hafter]
    rfl
  · exact TrySetOptions_fcntlCalls K w.os _
  · rw [TrySetOptions_any_fcntlFailed]
    rfl

/-- C10: after a `Connect` that returns `true` on a non-empty list of nodes,
there is a winning node (the nodes before it failed, it got a socket and
succeeded, its socket is the handle). In the trace, between the `socket` call
that returned the winning socket (the last `socket` call) and the `connect`
call on it, the `fcntl` calls are `F_GETFL` on that socket and, unless it
returned a negative value, `F_SETFL` on that socket with the flags read and
the bit `O_NONBLOCK`; `IsBlocking` is `true` exactly when one of these calls
returned a negative value, `false` exactly when none did; no other answer of
the system enters. `IsBlocking` is a function of the state alone. -/
theorem isBlocking_after_connect (K : Consts) (s : TcpSocketClient)
    (hostname : String) (port : UInt16) (timeout : Int) (dns : Resolution)
    (hne : dns.result ≠ []) (hok : (Connect K s hostname port timeout dns).outcome = Outcome.returned true) :
    ∃ pre w post, dns.result = pre ++ w :: post ∧ (∀ p ∈ pre, fails K p) ∧
      opens K w ∧ succeeds K w ∧
      (Connect K s hostname port timeout dns).client.socketHandle = w.os.socket ∧
      (IsBlocking (Connect K s hostname port timeout dns).client = true ↔ (w.os.getfl < 0 ∨ w.os.setfl < 0)) ∧
      (IsBlocking (Connect K s hostname port timeout dns).client = false ↔ (0 ≤ w.os.getfl ∧ 0 ≤ w.os.setfl)) ∧
      (∃ before opts after,
        (Connect K s hostname port timeout dns).trace =
          before ++
            OsCall.socket w.ai.ai_family w.ai.ai_socktype w.ai.ai_protocol w.os.socket ::
              (opts ++
                OsCall.connect w.os.socket w.ai.ai_addr w.ai.ai_addrlen w.os.connect ::
                  after) ∧
        socketCalls before = pre.map socketArgs ∧
        socketCalls after = [] ∧
        fcntlCalls opts =
          (if w.os.getfl < 0 then [OsCall.fcntlGetFl w.os.socket w.os.getfl]
           else [OsCall.fcntlGetFl w.os.socket w.os.getfl,
                 OsCall.fcntlSetFl w.os.socket (Int.ofNat (w.os.getfl.toNat ||| O_NONBLOCK))
                   w.os.setfl]) ∧
        (w.os.getfl.toNat ||| O_NONBLOCK) &&& O_NONBLOCK = O_NONBLOCK ∧
        IsBlocking (Connect K s hostname port timeout dns).client = opts.any fcntlFailed) := by
  have hres : dns.res = 0 := by
    by_contra hres
    rw [Connect_unresolved K s hostname port timeout dns hres] at hok
    exact Outcome.noConfusion hok
  rcases candidates_cases K dns.result with
    ⟨pre, w, post, hc, hp, ho, hs⟩ | ⟨pre, c, post, hc, hp, ho⟩ | hall
  · obtain ⟨_, h2, _⟩ := Connect_win K s hostname port timeout dns pre w post hres hc hp ho hs
    obtain ⟨before, opts, after, t1, t2, t3, t4, t5⟩ :=
      Connect_win_trace K s hostname port timeout dns pre w post hres hc hp ho hs
    refine ⟨pre, w, post, hc, hp, ho, hs, by rw [h2], ?_, ?_,
      before, opts, after, t1, t2, t3, t4, nonblock_bit_set _, ?_⟩
    · rw [h2]
      simp [IsBlocking, blockingAfter]
    · rw [h2]
      simp only [IsBlocking, blockingAfter, decide_eq_false_iff_not, not_or, not_lt]
    · rw [h2, t5]
      rfl
  · rw [(Connect_openfail K s hostname port timeout dns pre c post hres hc hp ho).1] at hok
    exact Outcome.noConfusion hok
  · rcases list_eq_nil_or_snoc dns.result with hnil | ⟨pre, l, hsn⟩
    · exact absurd hnil hne
    · have hpre : ∀ p ∈ pre, fails K p := fun p hp1 =>
        hall p (by rw [hsn]; exact List.mem_append_left _ hp1)
      have hl : fails K l := hall l (by rw [hsn]; simp)
      rw [(Connect_exhaust K s hostname port timeout dns pre l hres hsn hpre hl).1] at hok
      split at hok <;> simp at hok

/-! ## Instances -/

/-- Instance of C1: a refused node, then a node that becomes ready, then a
node that is never reached. -/
theorem connect_true_iff_first_success_witness :
    freshClient.socketHandle = linuxConsts.SOCKET_ERROR ∧ refusedThenReady.res = 0 ∧
    (∀ pre c post, refusedThenReady.result = pre ++ c :: post →
      (∀ p ∈ pre, ¬ succeeds linuxConsts p) → opens linuxConsts c) ∧
    ((Connect linuxConsts freshClient "localhost" 9999 100 refusedThenReady).outcome =
        Outcome.returned true ↔
      ∃ c ∈ refusedThenReady.result, succeeds linuxConsts c) := by
  have hopen : ∀ pre c post, refusedThenReady.result = pre ++ c :: post →
      (∀ p ∈ pre, ¬ succeeds linuxConsts p) → opens linuxConsts c := by
    intro pre c post h hf
    rcases pre with _ | ⟨x, _ | ⟨y, _ | ⟨z, pre⟩⟩⟩
    · simp only [refusedThenReady, List.nil_append, List.cons.injEq] at h
      rw [← h.1]
      decide
    · simp only [refusedThenReady, List.cons_append, List.nil_append, List.cons.injEq] at h
      rw [← h.2.1]
      decide
    · simp only [refusedThenReady, List.cons_append, List.nil_append, List.cons.injEq] at h
      exfalso
      apply hf y (by simp)
      rw [← h.2.1]
      decide
    · simp [refusedThenReady] at h
  exact ⟨by decide, by decide, hopen,
    (connect_true_iff_first_success linuxConsts freshClient "localhost" 9999 100
      refusedThenReady (by decide) (by decide) hopen).1⟩

/-- Instance of C2: two nodes, both in progress, both waits time out. -/
theorem connect_last_timeout_returns_false_witness :
    allTimeOut.res = 0 ∧
    allTimeOut.result = [⟨sampleAddr 1, sampleOs 7 (-1) 115 0⟩] ++ [⟨sampleAddr 2, sampleOs 8 (-1) 11 0⟩] ∧
    (∀ p ∈ [(⟨sampleAddr 1, sampleOs 7 (-1) 115 0⟩ : Candidate)], fails linuxConsts p) ∧
    opens linuxConsts ⟨sampleAddr 2, sampleOs 8 (-1) 11 0⟩ ∧
    wouldBlock linuxConsts ⟨sampleAddr 2, sampleOs 8 (-1) 11 0⟩ ∧
    (sampleOs 8 (-1) 11 0).wait = linuxConsts.TIMEOUT ∧
    (Connect linuxConsts freshClient "localhost" 9999 100 allTimeOut).outcome =
      Outcome.returned false ∧
    (Connect linuxConsts freshClient "localhost" 9999 100 allTimeOut).client.socketHandle =
      linuxConsts.SOCKET_ERROR :=
  ⟨by decide, by decide, by decide, by decide, by decide, by decide,
    connect_last_timeout_returns_false linuxConsts freshClient "localhost" 9999 100 allTimeOut
      [⟨sampleAddr 1, sampleOs 7 (-1) 115 0⟩] ⟨sampleAddr 2, sampleOs 8 (-1) 11 0⟩
      (by decide) (by decide) (by decide) (by decide) (by decide) (by decide)⟩

/-- C3 as stated fails: one node, in progress, whose readiness wait returns the
negative value -1 (an error, not the timeout value 0); the node fails, and
`Connect` returns `false` instead of throwing. -/
theorem connect_wait_error_returns_false :
    waitError.res = 0 ∧
    waitError.result = [⟨sampleAddr 1, sampleOs 7 (-1) 115 (-1)⟩] ∧
    fails linuxConsts ⟨sampleAddr 1, sampleOs 7 (-1) 115 (-1)⟩ ∧
    wouldBlock linuxConsts ⟨sampleAddr 1, sampleOs 7 (-1) 115 (-1)⟩ ∧
    (sampleOs 7 (-1) 115 (-1)).wait < 0 ∧
    (sampleOs 7 (-1) 115 (-1)).wait ≠ linuxConsts.TIMEOUT ∧
    (Connect linuxConsts freshClient "localhost" 9999 100 waitError).outcome =
      Outcome.returned false ∧
    ¬ ∃ e, (Connect linuxConsts freshClient "localhost" 9999 100 waitError).outcome =
      Outcome.thrown e := by
  refine ⟨by decide, by decide, by decide, by decide, by decide, by decide, by decide, ?_⟩
  rintro ⟨e, he⟩
  have h : (Connect linuxConsts freshClient "localhost" 9999 100 waitError).outcome =
      Outcome.returned false := by decide
  rw [h] at he
  exact Outcome.noConfusion he

/-- Instance of C3 (amended): one node, connection refused. -/
theorem connect_last_hard_failure_raises_witness :
    refused.res = 0 ∧
    refused.result = [] ++ [⟨sampleAddr 1, sampleOs 7 (-1) 111 0⟩] ∧
    (∀ p ∈ ([] : List Candidate), fails linuxConsts p) ∧
    opens linuxConsts ⟨sampleAddr 1, sampleOs 7 (-1) 111 0⟩ ∧
    failsNow linuxConsts ⟨sampleAddr 1, sampleOs 7 (-1) 111 0⟩ ∧
    (Connect linuxConsts freshClient "localhost" 9999 100 refused).outcome =
      Outcome.thrown (ThrowNetworkError
        ("Failed to establish connection with the host" ++ ": " ++ "Connection refused")) :=
  ⟨by decide, by decide, by decide, by decide, by decide,
    (connect_last_hard_failure_raises linuxConsts freshClient "localhost" 9999 100 refused
      [] ⟨sampleAddr 1, sampleOs 7 (-1) 111 0⟩ (by decide) (by decide) (by decide)
      (by decide)).1 (by decide)⟩

/-- Instance of C4: the name does not resolve. -/
theorem connect_resolution_failure_witness :
    unresolved.res ≠ 0 ∧
    (Connect linuxConsts freshClient "nowhere" 9999 100 unresolved).trace =
      [OsCall.getaddrinfo "nowhere" (toString (9999 : UInt16).toNat) unresolved.res] :=
  ⟨by decide,
    (connect_resolution_failure linuxConsts freshClient "nowhere" 9999 100 unresolved
      (by decide)).2.1⟩

/-- Instance of C5: a refused node, then a node without socket, then a node
that is never reached. -/
theorem connect_socket_failure_aborts_witness :
    refusedThenNoSocket.res = 0 ∧
    refusedThenNoSocket.result =
      [⟨sampleAddr 1, sampleOs 7 (-1) 111 0⟩] ++
        ⟨sampleAddr 2, sampleOs (-1) 0 0 0⟩ :: [⟨sampleAddr 3, sampleOs 9 0 0 0⟩] ∧
    (∀ p ∈ [(⟨sampleAddr 1, sampleOs 7 (-1) 111 0⟩ : Candidate)], fails linuxConsts p) ∧
    ¬ opens linuxConsts ⟨sampleAddr 2, sampleOs (-1) 0 0 0⟩ ∧
    (Connect linuxConsts freshClient "localhost" 9999 100 refusedThenNoSocket).outcome =
      Outcome.thrown { code := ErrCode.IGNITE_ERR_GENERIC,
                       msg := "Socket creation failed: " ++ "Too many open files" } :=
  ⟨by decide, by decide, by decide, by decide,
    (connect_socket_failure_aborts linuxConsts freshClient "localhost" 9999 100
      refusedThenNoSocket [⟨sampleAddr 1, sampleOs 7 (-1) 111 0⟩]
      ⟨sampleAddr 2, sampleOs (-1) 0 0 0⟩ [⟨sampleAddr 3, sampleOs 9 0 0 0⟩]
      (by decide) (by decide) (by decide) (by decide)).1⟩

/-- C6 as stated fails: a client connected on handle 5 calls `Connect`, the
resolution fails, `Connect` throws and the handle is still 5, not invalid. -/
theorem connected_client_keeps_handle_when_unresolved :
    connectedClient.socketHandle ≠ linuxConsts.SOCKET_ERROR ∧ unresolved.res ≠ 0 ∧
    (∃ e, (Connect linuxConsts connectedClient "nowhere" 9999 100 unresolved).outcome =
      Outcome.thrown e) ∧
    (Connect linuxConsts connectedClient "nowhere" 9999 100 unresolved).client.socketHandle = 5 ∧
    (Connect linuxConsts connectedClient "nowhere" 9999 100 unresolved).client.socketHandle ≠
      linuxConsts.SOCKET_ERROR :=
  ⟨by decide, by decide, ⟨_, rfl⟩, by decide, by decide⟩

/-- Instance of C6 (amended): a connected client, one node, connection
refused. -/
theorem connect_failure_leaves_handle_witness :
    refused.res = 0 ∧
    (Connect linuxConsts connectedClient "localhost" 9999 100 refused).outcome ≠
      Outcome.returned true ∧
    (Connect linuxConsts connectedClient "localhost" 9999 100 refused).client.socketHandle =
      linuxConsts.SOCKET_ERROR :=
  ⟨by decide, by decide,
    (connect_failure_leaves_handle linuxConsts connectedClient "localhost" 9999 100 refused).1
      (by decide) (by decide)⟩

/-- C7 on the code: a client connected on handle 5 calls `Connect`; the one
node gets socket 6 and connects. The call returns `true` with handle 6, and the
trace holds no `close` call at all: handle 5 is overwritten without being
released. -/
theorem connect_on_connected_client_leaks_handle :
    connectedClient.socketHandle = 5 ∧
    (Connect linuxConsts connectedClient "localhost" 9999 100 connectsAtOnce).outcome =
      Outcome.returned true ∧
    (Connect linuxConsts connectedClient "localhost" 9999 100 connectsAtOnce).client.socketHandle
      = 6 ∧
    OsCall.close 5 ∉
      (Connect linuxConsts connectedClient "localhost" 9999 100 connectsAtOnce).trace ∧
    closed (Connect linuxConsts connectedClient "localhost" 9999 100 connectsAtOnce).trace = 0 :=
  ⟨by decide, by decide, by decide, by decide, by decide⟩

/-- Instance of C8: a refused node, then a node that becomes ready. -/
theorem connect_socket_accounting_witness :
    freshClient.socketHandle = linuxConsts.SOCKET_ERROR ∧
    (Connect linuxConsts freshClient "localhost" 9999 100 refusedThenReady).outcome =
      Outcome.returned true ∧
    opened linuxConsts (Connect linuxConsts freshClient "localhost" 9999 100 refusedThenReady).trace =
      closed (Connect linuxConsts freshClient "localhost" 9999 100 refusedThenReady).trace + 1 ∧
    openHandles linuxConsts
        (Connect linuxConsts freshClient "localhost" 9999 100 refusedThenReady).trace =
      [(Connect linuxConsts freshClient "localhost" 9999 100 refusedThenReady).client.socketHandle] :=
  ⟨by decide, by decide,
    (connect_socket_accounting linuxConsts freshClient "localhost" 9999 100 refusedThenReady
      (by decide)).2.2.1 (by decide)⟩

/-- Instance of C10: the switch to non-blocking mode fails on the socket of the
one node (`F_SETFL` returns -1), which connects; `IsBlocking` is `true`, the
trace holds the `F_SETFL` call on socket 7 with the flags 2050, and the
property holds for this call. -/
theorem isBlocking_after_connect_witness :
    modeSwitchFails.result ≠ [] ∧
    (Connect linuxConsts freshClient "localhost" 9999 100 modeSwitchFails).outcome = Outcome.returned true ∧
    IsBlocking (Connect linuxConsts freshClient "localhost" 9999 100 modeSwitchFails).client = true ∧
    OsCall.fcntlSetFl 7 2050 (-1) ∈ (Connect linuxConsts freshClient "localhost" 9999 100 modeSwitchFails).trace ∧
    ∃ pre w post, modeSwitchFails.result = pre ++ w :: post ∧
      (∀ p ∈ pre, fails linuxConsts p) ∧ opens linuxConsts w ∧ succeeds linuxConsts w ∧
      (Connect linuxConsts freshClient "localhost" 9999 100 modeSwitchFails).client.socketHandle = w.os.socket ∧
      (IsBlocking (Connect linuxConsts freshClient "localhost" 9999 100 modeSwitchFails).client = true ↔ (w.os.getfl < 0 ∨ w.os.setfl < 0)) ∧
      (IsBlocking (Connect linuxConsts freshClient "localhost" 9999 100 modeSwitchFails).client = false ↔ (0 ≤ w.os.getfl ∧ 0 ≤ w.os.setfl)) ∧
      (∃ before opts after,
        (Connect linuxConsts freshClient "localhost" 9999 100 modeSwitchFails).trace =
          before ++
            OsCall.socket w.ai.ai_family w.ai.ai_socktype w.ai.ai_protocol w.os.socket ::
              (opts ++
                OsCall.connect w.os.socket w.ai.ai_addr w.ai.ai_addrlen w.os.connect ::
                  after) ∧
        socketCalls before = pre.map socketArgs ∧
        socketCalls after = [] ∧
        fcntlCalls opts =
          (if w.os.getfl < 0 then [OsCall.fcntlGetFl w.os.socket w.os.getfl]
           else [OsCall.fcntlGetFl w.os.socket w.os.getfl,
                 OsCall.fcntlSetFl w.os.socket (Int.ofNat (w.os.getfl.toNat ||| O_NONBLOCK))
                   w.os.setfl]) ∧
        (w.os.getfl.toNat ||| O_NONBLOCK) &&& O_NONBLOCK = O_NONBLOCK ∧
        IsBlocking (Connect linuxConsts freshClient "localhost" 9999 100 modeSwitchFails).client = opts.any fcntlFailed) :=
  ⟨by decide, by decide, by decide, by decide,
    isBlocking_after_connect linuxConsts freshClient "localhost" 9999 100 modeSwitchFails
      (by decide) (by decide)⟩

/-! ## `Send` and `Receive` -/

theorem toInt32_of_fits (n : Int) (h : fitsInt32 n) : toInt32 n = n := by
  unfold fitsInt32 at h
  unfold toInt32
  omega

/-- For a size that fits in `int` the length handed on is the size. -/
theorem transferLength_of_small (size : Nat) (h : size ≤ 2147483647) :
    transferLength size = size := by
  unfold transferLength toSizeT
  rw [Int.ofNat_eq_coe, toInt32_of_fits _ (by unfold fitsInt32; omega)]
  omega

/-- C11: `Send` and `Receive` leave the client as it was. In non-blocking mode
the first call is one readiness wait on the handle with the timeout of the
caller (write for `Send`, read for `Receive`); when its answer is negative or
the timeout value, that answer is returned and no transfer call is issued.
Otherwise, and always in blocking mode (where no wait is issued), exactly one
transfer call is issued and its answer, converted to `int`, is returned: the
answer itself whenever it fits in `int`. -/
theorem send_receive_wait_then_transfer (K : Consts) (s : TcpSocketClient) (size : Nat)
    (timeout : Int) (os : TransferOs) :
    ((Send K s size timeout os).client = s ∧ (Receive K s size timeout os).client = s) ∧
    (s.blocking = false → waitNotReady K os →
      (Send K s size timeout os).value = os.wait ∧
      (Send K s size timeout os).trace =
        [OsCall.waitOnSocket s.socketHandle timeout false os.wait] ∧
      (Receive K s size timeout os).value = os.wait ∧
      (Receive K s size timeout os).trace =
        [OsCall.waitOnSocket s.socketHandle timeout true os.wait]) ∧
    (s.blocking = false → ¬ waitNotReady K os →
      (Send K s size timeout os).value = toInt32 os.ret ∧
      (Send K s size timeout os).trace =
        [OsCall.waitOnSocket s.socketHandle timeout false os.wait,
         OsCall.send s.socketHandle (transferLength size) os.ret] ∧
      (Receive K s size timeout os).value = toInt32 os.ret ∧
      (Receive K s size timeout os).trace =
        [OsCall.waitOnSocket s.socketHandle timeout true os.wait,
         OsCall.recv s.socketHandle (transferLength size) os.ret]) ∧
    (s.blocking = true →
      (Send K s size timeout os).value = toInt32 os.ret ∧
      (Send K s size timeout os).trace =
        [OsCall.send s.socketHandle (transferLength size) os.ret] ∧
      (Receive K s size timeout os).value = toInt32 os.ret ∧
      (Receive K s size timeout os).trace =
        [OsCall.recv s.socketHandle (transferLength size) os.ret]) ∧
    (fitsInt32 os.ret → toInt32 os.ret = os.ret) := by
  refine ⟨?_, ?_, ?_, ?_, toInt32_of_fits os.ret⟩
  · cases hb : s.blocking <;>
      by_cases hw : os.wait < 0 ∨ os.wait = K.TIMEOUT <;>
        simp [Send, Receive, WaitOnSocket, hb, hw]
  · intro hb hw
    unfold waitNotReady at hw
    simp [Send, Receive, WaitOnSocket, hb, hw]
  · intro hb hw
    unfold waitNotReady at hw
    simp [Send, Receive, WaitOnSocket, hb, hw, transferLength]
  · intro hb
    simp [Send, Receive, hb, transferLength]

/-! ## The readiness waits of `Connect` -/

/-- The `connect` and wait calls of `Connect` when every node fails. -/
theorem Connect_exhaust_calls (K : Consts) (s : TcpSocketClient) (hostname : String)
    (port : UInt16) (timeout : Int) (dns : Resolution) (pre : List Candidate) (l : Candidate)
    (hres : dns.res = 0) (hcands : dns.result = pre ++ [l])
    (hpre : ∀ p ∈ pre, fails K p) (hl : fails K l) :
    connectCalls (Connect K s hostname port timeout dns).trace = (pre ++ [l]).map connectArgs ∧
    waitCalls (Connect K s hostname port timeout dns).trace = waitsFor K timeout (pre ++ [l]) := by
  obtain ⟨h1, _, _, h4, _, h6, h7⟩ :=
    connectLoop_exhaust K timeout pre l hpre hl "Failed to resolve host" false s
  unfold Connect
  simp only [hres, hcands, ne_eq, not_true_eq_false, if_false, h1, h4, if_true]
  split <;>
    simp only [connectCalls_append, waitCalls_append, connectCalls_cons, waitCalls_cons,
      connectCalls_nil, waitCalls_nil, List.append_nil, List.nil_append, h6, h7, and_self]

/-- The `connect` and wait calls of `Connect` on an empty list of nodes. -/
theorem Connect_nil_calls (K : Consts) (s : TcpSocketClient) (hostname : String)
    (port : UInt16) (timeout : Int) (dns : Resolution)
    (hres : dns.res = 0) (hcands : dns.result = []) :
    connectCalls (Connect K s hostname port timeout dns).trace = [] ∧ waitCalls (Connect K s hostname port timeout dns).trace = [] := by
  unfold Connect
  simp only [hres, hcands, ne_eq, not_true_eq_false, if_false, connectLoop]
  split <;> (try split) <;> exact ⟨rfl, rfl⟩

/-- For all answers of the system, the `connect` calls of `Connect` are those of
an initial segment of the resolver list, and its readiness waits are those of
the would-block nodes of that segment. -/
theorem Connect_calls (K : Consts) (s : TcpSocketClient) (hostname : String)
    (port : UInt16) (timeout : Int) (dns : Resolution) :
    ∃ attempted post, dns.result = attempted ++ post ∧
      connectCalls (Connect K s hostname port timeout dns).trace = attempted.map connectArgs ∧
      waitCalls (Connect K s hostname port timeout dns).trace = waitsFor K timeout attempted := by
  by_cases hres : dns.res = 0
  · rcases candidates_cases K dns.result with
      ⟨pre, w, post, hc, hp, ho, hs⟩ | ⟨pre, c, post, hc, hp, ho⟩ | hall
    · obtain ⟨_, _, _, h4, h5⟩ :=
        Connect_win K s hostname port timeout dns pre w post hres hc hp ho hs
      exact ⟨pre ++ [w], post, by rw [hc]; simp, h4, h5⟩
    · obtain ⟨_, _, tr, h1, _, h3, h4⟩ :=
        Connect_openfail K s hostname port timeout dns pre c post hres hc hp ho
      refine ⟨pre, c :: post, hc, ?_, ?_⟩
      · rw [h1, connectCalls_append, h3]
        simp only [connectCalls_cons, connectCalls_nil, List.append_nil]
      · rw [h1, waitCalls_append, h4]
        simp only [waitCalls_cons, waitCalls_nil, List.append_nil]
    · rcases list_eq_nil_or_snoc dns.result with hnil | ⟨pre, l, hsn⟩
      · obtain ⟨h1, h2⟩ := Connect_nil_calls K s hostname port timeout dns hres hnil
        exact ⟨[], dns.result, rfl, h1, h2⟩
      · have hpre : ∀ p ∈ pre, fails K p := fun p hp1 =>
          hall p (by rw [hsn]; exact List.mem_append_left _ hp1)
        have hl : fails K l := hall l (by rw [hsn]; simp)
        obtain ⟨h1, h2⟩ :=
          Connect_exhaust_calls K s hostname port timeout dns pre l hres hsn hpre hl
        exact ⟨pre ++ [l], [], by rw [hsn]; simp, h1, h2⟩
  · rw [Connect_unresolved K s hostname port timeout dns hres]
    exact ⟨[], dns.result, rfl, rfl, rfl⟩

theorem waitArgs_timeout_sum (t : Int) (cs : List Candidate) :
    ((cs.map (waitArgs t)).map fun w => w.2.1).sum = (cs.length : Int) * t := by
  induction cs with
  | nil => simp
  | cons c cs ih =>
    simp only [List.map_cons, List.sum_cons, List.length_cons, ih, waitArgs]
    push_cast
    ring

/-- C12: for all answers of the system, the readiness waits of `Connect` are
those of the would-block nodes among the nodes it tried to connect (an initial
segment of the resolver list), one for each, in order; each is a write wait on
the node's socket that gets the timeout of the caller as it is; so the timeouts
handed to the waits add up to the number of waits times that timeout. -/
theorem connect_wait_timeout_per_candidate (K : Consts) (s : TcpSocketClient)
    (hostname : String) (port : UInt16) (timeout : Int) (dns : Resolution) :
    ∃ attempted post, dns.result = attempted ++ post ∧
      connectCalls (Connect K s hostname port timeout dns).trace = attempted.map connectArgs ∧
      waitCalls (Connect K s hostname port timeout dns).trace =
        (attempted.filter fun c => decide (wouldBlock K c)).map
          (fun c => (c.os.socket, timeout, false, c.os.wait)) ∧
      (∀ w ∈ waitCalls (Connect K s hostname port timeout dns).trace, w.2.1 = timeout ∧ w.2.2.1 = false) ∧
      (waitCalls (Connect K s hostname port timeout dns).trace).length ≤ attempted.length ∧
      (waitTimeouts (Connect K s hostname port timeout dns).trace).sum = ((waitCalls (Connect K s hostname port timeout dns).trace).length : Int) * timeout := by
  obtain ⟨attempted, post, h1, h2, h3⟩ := Connect_calls K s hostname port timeout dns
  refine ⟨attempted, post, h1, h2, h3, ?_, ?_, ?_⟩
  · intro w hw
    rw [h3] at hw
    unfold waitsFor at hw
    obtain ⟨c, _, hc⟩ := List.mem_map.mp hw
    rw [← hc]
    exact ⟨rfl, rfl⟩
  · rw [h3]
    unfold waitsFor
    rw [List.length_map]
    exact List.length_filter_le _ _
  · unfold waitTimeouts
    rw [h3]
    unfold waitsFor
    rw [waitArgs_timeout_sum, List.length_map]

/-- C13 on the code: for `size = 2^31` (a valid `size_t`) the conversion to
`int` gives `-2^31`, and `send` / `recv` get the length `2^64 - 2^31`, which is
larger than `size`. -/
theorem transfer_length_exceeds_size :
    (2147483648 : Nat) < 18446744073709551616 ∧
    toInt32 (Int.ofNat 2147483648) = -2147483648 ∧
    (Send linuxConsts blockingClient 2147483648 100 readyTransfer).trace =
      [OsCall.send 5 18446744071562067968 10] ∧
    (Receive linuxConsts blockingClient 2147483648 100 readyTransfer).trace =
      [OsCall.recv 5 18446744071562067968 10] ∧
    (2147483648 : Nat) < transferLength 2147483648 :=
  ⟨by decide, by decide, by decide, by decide, by decide⟩

/-- Instance of C11: a non-blocking client whose wait reports ready. -/
theorem send_receive_wait_then_transfer_witness :
    connectedClient.blocking = false ∧ ¬ waitNotReady linuxConsts readyTransfer ∧
    fitsInt32 readyTransfer.ret ∧
    (Send linuxConsts connectedClient 10 100 readyTransfer).value = toInt32 readyTransfer.ret ∧
    toInt32 readyTransfer.ret = readyTransfer.ret ∧
    (Send linuxConsts connectedClient 10 100 readyTransfer).trace =
      [OsCall.waitOnSocket connectedClient.socketHandle 100 false readyTransfer.wait,
       OsCall.send connectedClient.socketHandle (transferLength 10) readyTransfer.ret] :=
  ⟨by decide, by decide, by decide,
    ((send_receive_wait_then_transfer linuxConsts connectedClient 10 100 readyTransfer).2.2.1
      (by decide) (by decide)).1,
    (send_receive_wait_then_transfer linuxConsts connectedClient 10 100 readyTransfer).2.2.2.2
      (by decide),
    ((send_receive_wait_then_transfer linuxConsts connectedClient 10 100 readyTransfer).2.2.1
      (by decide) (by decide)).2.1⟩

/-- Instance of C12: two nodes, both in progress, both waits time out with the
timeout 100; two waits are issued and their timeouts add up to 200. -/
theorem connect_wait_timeout_per_candidate_witness :
    (waitCalls (Connect linuxConsts freshClient "localhost" 9999 100 allTimeOut).trace).length
      = 2 ∧
    (waitTimeouts (Connect linuxConsts freshClient "localhost" 9999 100 allTimeOut).trace).sum
      = 2 * 100 ∧
    (100 : Int) <
      (waitTimeouts (Connect linuxConsts freshClient "localhost" 9999 100 allTimeOut).trace).sum
    := by
  obtain ⟨_, _, _, _, _, _, _, hsum⟩ :=
    connect_wait_timeout_per_candidate linuxConsts freshClient "localhost" 9999 100 allTimeOut
  have hlen :
      (waitCalls (Connect linuxConsts freshClient "localhost" 9999 100 allTimeOut).trace).length
        = 2 := by decide
  rw [hlen] at hsum
  rw [hsum]
  exact ⟨hlen, by norm_num, by norm_num⟩

end ignite.network
